import Mathlib

/-!
# device_hub: vendor filter, hotplug refresh and cursor-based device selection

A shallow embedding of `src/device_hub.cpp` (namespace `librealsense`).

* Collaborator objects (`device_info`, `device_interface`) are records of the
  results of the methods the hub calls on them.
* `std::vector` is `List`, the `int` counters are `Nat` (all values stay
  between `0` and the length of the device list).
* A C++ call can return, leave by an exception, or hit undefined behaviour;
  `outcome` keeps the three apart.
* `create_device` also records which list positions it opened, in order.
* `wait_for_device` runs against a schedule of blocked periods: what the
  other threads do to the hub while the caller is blocked in the condition
  wait, and whether the period ends by a wake or by the timeout. The call
  counts its `create_device` executions, predicate evaluations, blocked
  periods and sleeps. Wall-clock time is not part of the embedding.
-/

namespace librealsense

/-! ## Collaborators -/

/-- One UVC sub-component of a descriptor; only `vid` is read by the hub. Its
C++ type is declared outside of device_hub.cpp; it is compared with the `int`
parameter of `filter_by_vid`, so both are integers here. -/
structure uvc_device_info where
  vid : Int
deriving DecidableEq

/-- Result of `device_info::get_device_data()`; only `uvc_devices` is read. -/
structure backend_device_group where
  uvc_devices : List uvc_device_info
deriving DecidableEq

/-- A live device handle (`device_interface`): the serial number returned by
`get_info(RS2_CAMERA_INFO_SERIAL_NUMBER)` and the answer of `is_valid()`. -/
structure device_interface where
  serial_number : String
  is_valid : Bool
deriving DecidableEq

/-- What `d->create_device(flag)` does on a descriptor: it returns a live
handle, returns a null pointer, or throws. -/
inductive create_result where
  | device (dev : device_interface)
  | null
  | throws
deriving DecidableEq

/-- A device descriptor (`device_info`), as the two methods the hub calls. -/
structure device_info where
  get_device_data : backend_device_group
  create_device : Bool → create_result

/-- The undefined behaviours the embedded code could run into. -/
inductive fault where
  | null_dereference
  | modulo_by_zero
  | index_out_of_range
deriving DecidableEq

/-- How a call ends: normal return, an exception leaving the call, or
undefined behaviour. -/
inductive outcome (α : Type) where
  | returned (value : α)
  | thrown
  | undefined (f : fault)
deriving DecidableEq

/-! ## `filter_by_vid` (device_hub.cpp, lines 13-29) -/

/-- The inner loop `for (auto uvc : data.uvc_devices)`: true when the body
reaches `result.push_back(dev); break;`. -/
def uvc_loop (vid : Int) : List uvc_device_info → Bool
  | [] => false
  | uvc :: rest => if uvc.vid = vid ∨ vid = 0 then true else uvc_loop vid rest

/-- The outer loop `for (auto dev : devices)`, returning `result`. -/
def filter_by_vid : List device_info → Int → List device_info
  | [], _ => []
  | dev :: rest, vid =>
    if uvc_loop vid dev.get_device_data.uvc_devices
    then dev :: filter_by_vid rest vid
    else filter_by_vid rest vid

/-! ## The hub state -/

/-- The members of `device_hub` that the code reads or writes. -/
structure device_hub where
  _device_list : List device_info
  _camera_index : Nat
  _vid : Int
  _register_device_notifications : Bool

/-- Modelled from the spec: the initial value of `_camera_index`, whose
in-class initialiser lives in `device_hub.h` (not part of the sources); the
cursor starts at 0. -/
def camera_index_init : Nat := 0

/-- The constructor body (line 36): the list is the filtered first query. -/
def device_hub.construct (query_devices : List device_info) (vid : Int)
    (register_device_notifications : Bool) : device_hub :=
  { _device_list := filter_by_vid query_devices vid
    _camera_index := camera_index_init
    _vid := vid
    _register_device_notifications := register_device_notifications }

/-! ## The devices-changed callback (lines 38-50) -/

/-- What one run of the callback leaves behind: the hub, whether
`_cv.notify_all()` ran, and how the lambda ended. -/
structure callback_result where
  hub : device_hub
  notified : Bool
  res : outcome Unit

/-- The lambda registered with the context. `query_devices` is what the call
`_ctx->query_devices()` does at this event: it returns a list, or it throws
(`none`). Nothing in the lambda catches an exception, so a throwing query
leaves the lambda before any member is assigned. An exception raised while
filtering leaves the lambda at the same place, inside the right-hand side of
line 42, and is the case `none` as well. -/
def device_hub.devices_changed_callback (hub : device_hub)
    (query_devices : Option (List device_info)) : callback_result :=
  match query_devices with
  | some devices =>
    let list := filter_by_vid devices hub._vid
    { hub := { hub with _device_list := list, _camera_index := 0 }
      notified := decide (list.length > 0)
      res := .returned () }
  | none => { hub := hub, notified := false, res := .thrown }

/-! ## `create_device` (lines 55-85) -/

/-- State of the selection loop when it is left: the positions opened so far
and how the loop ended (`res`, or an abnormal end). -/
structure scan_result where
  opened : List Nat
  res : outcome (Option device_interface)

/-- Record one more opened position in front of a scan. -/
def scan_result.after (idx : Nat) (r : scan_result) : scan_result :=
  { r with opened := idx :: r.opened }

/-- The loop `for (auto i = 0; (i < size) && (nullptr == res); i++)`, entered
with `res == nullptr` at counter `i`; `remaining` is `size - i`, so the case
`remaining = 0` is the exit `i >= size`, and `res != nullptr` leaves the
loop by returning. -/
def device_hub.scan (hub : device_hub) (serial : String) : Nat → Nat → scan_result
  | 0, _ => { opened := [], res := .returned none }
  | remaining + 1, i =>
    if hub._device_list.length = 0 then
      { opened := [], res := .undefined .modulo_by_zero }
    else
      let idx := (hub._camera_index + i) % hub._device_list.length
      match hub._device_list[idx]? with
      | none => { opened := [], res := .undefined .index_out_of_range }
      | some d =>
        match d.create_device hub._register_device_notifications with
        | .throws => { opened := [idx], res := .thrown }
        | .null =>
          if serial.length > 0 then
            { opened := [idx], res := .undefined .null_dereference }
          else
            (hub.scan serial remaining (i + 1)).after idx
        | .device dev =>
          if serial.length > 0 then
            if serial = dev.serial_number then
              { opened := [idx], res := .returned (some dev) }
            else
              (hub.scan serial remaining (i + 1)).after idx
          else
            { opened := [idx], res := .returned (some dev) }

/-- Result of a `create_device` call: the hub afterwards, the positions
opened, and the returned pointer (or the abnormal end). -/
structure create_device_result where
  hub : device_hub
  opened : List Nat
  res : outcome (Option device_interface)

/-- The whole of `device_hub::create_device`: the loop from `i = 0`, then
`if (res && cycle_devices) _camera_index = ++_camera_index % size`. -/
def device_hub.create_device (hub : device_hub) (serial : String)
    (cycle_devices : Bool) : create_device_result :=
  let s := hub.scan serial hub._device_list.length 0
  match s.res with
  | .returned (some dev) =>
    if cycle_devices then
      if hub._device_list.length = 0 then
        { hub := hub, opened := s.opened, res := .undefined .modulo_by_zero }
      else
        { hub := { hub with
                   _camera_index := (hub._camera_index + 1) % hub._device_list.length }
          opened := s.opened
          res := .returned (some dev) }
    else
      { hub := hub, opened := s.opened, res := .returned (some dev) }
  | other => { hub := hub, opened := s.opened, res := other }

/-! ## `wait_for_device` (lines 92-128) -/

/-- What another thread does to the hub while the caller of `wait_for_device`
is blocked in the condition wait (the only time the caller does not hold
`_mutex`): the provider runs the devices-changed callback, or another caller
runs `create_device` under the lock. -/
inductive hub_event where
  | devices_changed (query_devices : Option (List device_info))
  | other_caller (serial : String) (cycle_devices : Bool)

/-- The hub after one event of another thread. -/
def device_hub.after_event (hub : device_hub) : hub_event → device_hub
  | .devices_changed query_devices => (hub.devices_changed_callback query_devices).hub
  | .other_caller serial cycle_devices => (hub.create_device serial cycle_devices).hub

/-- The hub after the events of one blocked period, in order. -/
def device_hub.after_events (hub : device_hub) : List hub_event → device_hub
  | [] => hub
  | event :: rest => (hub.after_event event).after_events rest

/-- What happens while a call waits: `wakes` are the blocked periods that end
before the deadline (by `notify_all` or a spurious wakeup), each with the
events of the other threads during it; `last` is the blocked period that ends
with the timed wait reporting the timeout. The call reads as many periods as
it needs. -/
structure wait_schedule where
  wakes : List (List hub_event)
  last : List hub_event

/-- How a `wait_for_device` call ends. -/
inductive wait_outcome where
  | returned (dev : device_interface)
  | no_device_connected
  | thrown
  | undefined (f : fault)
deriving DecidableEq

/-- One evaluation of the wait predicate (the lambda of lines 107-121): the
hub afterwards, the value of `res` when it returns (`cond` is `res != nullptr`)
or its abnormal end, and whether it ran `create_device` and `sleep_for`. -/
structure predicate_result where
  hub : device_hub
  res : outcome (Option device_interface)
  selections : Nat
  sleeps : Nat

/-- The lambda: `res = nullptr; if (size > 0) res = create_device(...);
if (res != nullptr) cond = true; else sleep_for(50ms); return cond;`. -/
def device_hub.wait_predicate (hub : device_hub) (serial : String)
    (loop_through_devices : Bool) : predicate_result :=
  if hub._device_list.length > 0 then
    let r := hub.create_device serial loop_through_devices
    match r.res with
    | .returned none => { hub := r.hub, res := .returned none, selections := 1, sleeps := 1 }
    | other => { hub := r.hub, res := other, selections := 1, sleeps := 0 }
  else
    { hub := hub, res := .returned none, selections := 0, sleeps := 1 }

/-- A `wait_for_device` call: the hub when it ends, how it ends, and how often
it ran `create_device`, evaluated the wait predicate, blocked in the condition
wait (each blocked period ends by one wake) and slept. -/
structure wait_result where
  hub : device_hub
  res : wait_outcome
  selections : Nat
  evaluations : Nat
  waits : Nat
  sleeps : Nat

/-- Add the counts of one predicate evaluation, and `waits` blocked periods,
in front of the rest of a wait. -/
def wait_result.after (p : predicate_result) (waits : Nat) (w : wait_result) :
    wait_result :=
  { w with
    selections := p.selections + w.selections
    evaluations := 1 + w.evaluations
    waits := waits + w.waits
    sleeps := p.sleeps + w.sleeps }

/-- A wait that ends with the predicate evaluation `p`, after `waits` blocked
periods. -/
def wait_result.ending (p : predicate_result) (waits : Nat) (res : wait_outcome) :
    wait_result :=
  { hub := p.hub, res := res, selections := p.selections, evaluations := 1,
    waits := waits, sleeps := p.sleeps }

/-- The statement `return pred();` after the timed wait reported the timeout,
followed by lines 122-126: a false predicate throws "No device connected". -/
def device_hub.wait_timed_out (hub : device_hub) (serial : String)
    (loop_through_devices : Bool) : wait_result :=
  let p := hub.wait_predicate serial loop_through_devices
  match p.res with
  | .returned (some dev) => wait_result.ending p 0 (.returned dev)
  | .returned none => wait_result.ending p 0 .no_device_connected
  | .thrown => wait_result.ending p 0 .thrown
  | .undefined f => wait_result.ending p 0 (.undefined f)

/-- The call `_cv.wait_for(lock, timeout, pred)` with lines 122-126. By the C++
standard it is `while (!pred()) if (wait_until(lock, deadline) ==
cv_status::timeout) return pred(); return true;`: the predicate is evaluated
before the first blocking, again after every wake, and a last time after the
timeout. An exception of the predicate leaves the call. -/
def device_hub.wait_for (hub : device_hub) (serial : String)
    (loop_through_devices : Bool) : List (List hub_event) → List hub_event → wait_result
  | wakes, last =>
    let p := hub.wait_predicate serial loop_through_devices
    match p.res with
    | .returned (some dev) => wait_result.ending p 0 (.returned dev)
    | .thrown => wait_result.ending p 0 .thrown
    | .undefined f => wait_result.ending p 0 (.undefined f)
    | .returned none =>
      match wakes with
      | [] =>
        ((p.hub.after_events last).wait_timed_out serial loop_through_devices).after p 1
      | events :: rest =>
        ((p.hub.after_events events).wait_for serial loop_through_devices rest last).after p 1

/-- The whole of `device_hub::wait_for_device`. The deadline `timeout_ms` is
wall-clock time; which blocked periods end before it is told by `schedule`. -/
def device_hub.wait_for_device (hub : device_hub) (_timeout_ms : Nat)
    (loop_through_devices : Bool) (serial : String) (schedule : wait_schedule) :
    wait_result :=
  if hub._device_list.length > 0 then
    let r := hub.create_device serial loop_through_devices
    match r.res with
    | .returned (some dev) =>
      { hub := r.hub, res := .returned dev, selections := 1, evaluations := 0,
        waits := 0, sleeps := 0 }
    | .thrown =>
      { hub := r.hub, res := .thrown, selections := 1, evaluations := 0,
        waits := 0, sleeps := 0 }
    | .undefined f =>
      { hub := r.hub, res := .undefined f, selections := 1, evaluations := 0,
        waits := 0, sleeps := 0 }
    | .returned none =>
      let w := r.hub.wait_for serial loop_through_devices schedule.wakes schedule.last
      { w with selections := 1 + w.selections }
  else
    hub.wait_for serial loop_through_devices schedule.wakes schedule.last

/-! ## `is_connected` (lines 133-137) -/

/-- The call locks `_mutex` and returns `dev.is_valid()`; the result is paired
with the hub afterwards. -/
def device_hub.is_connected (hub : device_hub) (dev : device_interface) :
    device_hub × Bool :=
  (hub, dev.is_valid)

/-! ## Derived notions used in the statements -/

/-- What opening the descriptor at list position `p` does, if `p` is a
position of the list. -/
def device_hub.create_at (hub : device_hub) (p : Nat) : Option create_result :=
  (hub._device_list[p]?).map
    (fun d => d.create_device hub._register_device_notifications)

/-- The handle the descriptor at list position `p` opens to, if it does. -/
def device_hub.handle_at (hub : device_hub) (p : Nat) : Option device_interface :=
  match hub.create_at p with
  | some (.device dev) => some dev
  | _ => none

/-- The candidate at position `p` is opened and not selected: with a serial
its handle reports another serial number, without one its open gave null. -/
def device_hub.passed_over (hub : device_hub) (serial : String) (p : Nat) : Prop :=
  match hub.create_at p with
  | some (.device dev) => serial.length > 0 ∧ serial ≠ dev.serial_number
  | some .null => serial.length = 0
  | _ => False

instance (hub : device_hub) (serial : String) (p : Nat) :
    Decidable (hub.passed_over serial p) := by
  unfold device_hub.passed_over
  split <;> infer_instance

/-- The list position of the `i`-th candidate of a scan. -/
def device_hub.scan_index (hub : device_hub) (i : Nat) : Nat :=
  (hub._camera_index + i) % hub._device_list.length

/-- The positions of candidates `i, i+1, ..., i+k-1` of a scan, in order. -/
def device_hub.scan_window (hub : device_hub) (i k : Nat) : List Nat :=
  (List.range k).map (fun j => hub.scan_index (i + j))

/-- The positions of the first `k` candidates of a scan, in scan order. -/
def device_hub.scan_positions (hub : device_hub) (k : Nat) : List Nat :=
  hub.scan_window 0 k

/-- True when a call ended by returning a non-null handle (`res` is true as
a condition). -/
def produced_handle : outcome (Option device_interface) → Bool
  | .returned (some _) => true
  | _ => false

/-- The hub after `k` consecutive calls `create_device("", true)`. -/
def device_hub.cycle_calls (hub : device_hub) : Nat → device_hub
  | 0 => hub
  | k + 1 => ((hub.cycle_calls k).create_device "" true).hub

/-- The hub states reachable from construction. `hotplug` is one run of the
devices-changed callback (whatever the provider query does), `select` is one
`create_device` call that returns, and `reopen` lets the descriptors of the
list change what their open does between two calls. -/
inductive reachable (vid : Int) (register_device_notifications : Bool) :
    device_hub → Prop where
  | construct (query_devices : List device_info) :
    reachable vid register_device_notifications
      (device_hub.construct query_devices vid register_device_notifications)
  | hotplug (hub : device_hub) (query_devices : Option (List device_info)) :
    reachable vid register_device_notifications hub →
    reachable vid register_device_notifications
      (hub.devices_changed_callback query_devices).hub
  | select (hub : device_hub) (serial : String) (cycle_devices : Bool)
      (value : Option device_interface) :
    reachable vid register_device_notifications hub →
    (hub.create_device serial cycle_devices).res = .returned value →
    reachable vid register_device_notifications
      (hub.create_device serial cycle_devices).hub
  | reopen (hub : device_hub) (list : List device_info) :
    reachable vid register_device_notifications hub →
    list.map (fun d => d.get_device_data) =
      hub._device_list.map (fun d => d.get_device_data) →
    reachable vid register_device_notifications { hub with _device_list := list }

/-- The hub states in which a waiting call evaluates its predicate, as long as
no evaluation ends the call: the state at the first evaluation (before any
blocking), then the state after each blocked period of the schedule, the last
being the one that ends by the timeout. -/
def device_hub.evaluation_states (hub : device_hub) :
    List (List hub_event) → List hub_event → List device_hub
  | [], last => [hub, hub.after_events last]
  | events :: rest, last => hub :: (hub.after_events events).evaluation_states rest last

/-- How a call ends when a predicate evaluation ends with `res`, a null `res`
being the one of the evaluation made after the timeout. -/
def wait_outcome.of_predicate : outcome (Option device_interface) → wait_outcome
  | .returned (some dev) => .returned dev
  | .returned none => .no_device_connected
  | .thrown => .thrown
  | .undefined f => .undefined f

/-! ## Concrete scenarios -/

/-- Device A of the spec scenario: one UVC sub-component, serial "S1". -/
def device_A : device_info :=
  { get_device_data := { uvc_devices := [{ vid := 0x8086 }] }
    create_device := fun _ => .device { serial_number := "S1", is_valid := true } }

/-- Device B of the spec scenario: one UVC sub-component, serial "S2". -/
def device_B : device_info :=
  { get_device_data := { uvc_devices := [{ vid := 0x8086 }] }
    create_device := fun _ => .device { serial_number := "S2", is_valid := true } }

/-- A descriptor whose open returns a null pointer. -/
def device_null : device_info :=
  { get_device_data := { uvc_devices := [{ vid := 0x8086 }] }
    create_device := fun _ => .null }

/-- A descriptor whose open throws. -/
def device_throwing : device_info :=
  { get_device_data := { uvc_devices := [{ vid := 0x8086 }] }
    create_device := fun _ => .throws }

/-- A descriptor without any UVC sub-component. -/
def device_bare : device_info :=
  { get_device_data := { uvc_devices := [] }
    create_device := fun _ => .device { serial_number := "S0", is_valid := true } }

/-- The hub of the spec scenario: list `[A, B]`, vendor filter 0. -/
def hub_AB : device_hub := device_hub.construct [device_A, device_B] 0 true

/-- A hub whose first descriptor opens to null and whose second is A. -/
def hub_null_A : device_hub := device_hub.construct [device_null, device_A] 0 true

/-- A hub whose first descriptor throws when opened and whose second is B. -/
def hub_throwing_B : device_hub :=
  device_hub.construct [device_throwing, device_B] 0 true

/-- Device C of the spec scenario: one UVC sub-component, serial "S3". -/
def device_C : device_info :=
  { get_device_data := { uvc_devices := [{ vid := 0x8086 }] }
    create_device := fun _ => .device { serial_number := "S3", is_valid := true } }

/-- A hub constructed while no device is attached. -/
def hub_empty : device_hub := device_hub.construct [] 0 true

/-- A hotplug event adds device C while the caller is blocked, and the caller
is woken before the deadline. -/
def schedule_C_arrives : wait_schedule :=
  { wakes := [[.devices_changed (some [device_C])]], last := [] }

/-- A hotplug event adds device C during the blocked period that ends with
the timed wait reporting the timeout. -/
def schedule_C_at_timeout : wait_schedule :=
  { wakes := [], last := [.devices_changed (some [device_C])] }

/-- A hotplug event adds a device whose open throws. -/
def schedule_throwing_arrives : wait_schedule :=
  { wakes := [[.devices_changed (some [device_throwing])]], last := [] }

/-- Nothing happens until the timeout. -/
def schedule_quiet : wait_schedule := { wakes := [], last := [] }

/-! ## Facts about `filter_by_vid` -/

theorem uvc_loop_iff (vid : Int) (l : List uvc_device_info) :
    uvc_loop vid l = true ↔ ∃ uvc ∈ l, uvc.vid = vid ∨ vid = 0 := by
  induction l with
  | nil => simp [uvc_loop]
  | cons u rest ih =>
    by_cases h : u.vid = vid ∨ vid = 0
    · simp only [uvc_loop, h, if_true, true_iff]
      exact ⟨u, List.mem_cons_self _ _, h⟩
    · simp only [uvc_loop, h, if_false, ih, List.mem_cons, exists_eq_or_imp, false_or]

theorem filter_by_vid_eq_filter (devices : List device_info) (vid : Int) :
    filter_by_vid devices vid =
      devices.filter (fun d => uvc_loop vid d.get_device_data.uvc_devices) := by
  induction devices with
  | nil => rfl
  | cons d rest ih =>
    by_cases h : uvc_loop vid d.get_device_data.uvc_devices = true
    · simp [filter_by_vid, h, ih]
    · simp [filter_by_vid, h, ih]

/-! ## Facts about the selection loop -/

theorem scan_index_lt (hub : device_hub) (i : Nat) (hn : hub._device_list.length ≠ 0) :
    hub.scan_index i < hub._device_list.length :=
  Nat.mod_lt _ (Nat.pos_of_ne_zero hn)

theorem create_at_eq_some (hub : device_hub) (p : Nat) (r : create_result)
    (h : hub.create_at p = some r) :
    ∃ d, hub._device_list[p]? = some d ∧
      d.create_device hub._register_device_notifications = r := by
  unfold device_hub.create_at at h
  cases hd : hub._device_list[p]? with
  | none => simp [hd] at h
  | some d => exact ⟨d, rfl, by simpa [hd] using h⟩

theorem length_ne_zero_of_create_at (hub : device_hub) (p : Nat) (r : create_result)
    (h : hub.create_at p = some r) : hub._device_list.length ≠ 0 := by
  obtain ⟨d, hd, _⟩ := create_at_eq_some hub p r h
  intro h0
  have : hub._device_list = [] := List.length_eq_zero.mp h0
  simp [this] at hd

/-- One iteration of the loop at counter `i`, in terms of what the candidate
at `scan_index i` opens to. -/
theorem scan_succ (hub : device_hub) (serial : String) (remaining i : Nat)
    (r : create_result) (h : hub.create_at (hub.scan_index i) = some r) :
    hub.scan serial (remaining + 1) i =
      match r with
      | .throws => { opened := [hub.scan_index i], res := .thrown }
      | .null =>
        if serial.length > 0 then
          { opened := [hub.scan_index i], res := .undefined .null_dereference }
        else (hub.scan serial remaining (i + 1)).after (hub.scan_index i)
      | .device dev =>
        if serial.length > 0 then
          if serial = dev.serial_number then
            { opened := [hub.scan_index i], res := .returned (some dev) }
          else (hub.scan serial remaining (i + 1)).after (hub.scan_index i)
        else { opened := [hub.scan_index i], res := .returned (some dev) } := by
  have hn := length_ne_zero_of_create_at hub _ r h
  obtain ⟨d, hd, hr⟩ := create_at_eq_some hub _ r h
  unfold device_hub.scan_index at hd
  rw [device_hub.scan]
  simp only [hn, if_false, hd, hr]
  cases r <;> rfl

theorem create_at_scan_index (hub : device_hub) (i : Nat)
    (hn : hub._device_list.length ≠ 0) :
    ∃ r, hub.create_at (hub.scan_index i) = some r := by
  have hlt := scan_index_lt hub i hn
  refine ⟨(hub._device_list[hub.scan_index i]).create_device
    hub._register_device_notifications, ?_⟩
  simp [device_hub.create_at, List.getElem?_eq_getElem hlt]

theorem scan_succ_of_passed_over (hub : device_hub) (serial : String)
    (remaining i : Nat) (h : hub.passed_over serial (hub.scan_index i)) :
    hub.scan serial (remaining + 1) i =
      (hub.scan serial remaining (i + 1)).after (hub.scan_index i) := by
  unfold device_hub.passed_over at h
  cases hc : hub.create_at (hub.scan_index i) with
  | none => simp [hc] at h
  | some r =>
    rw [scan_succ hub serial remaining i r hc]
    cases r with
    | throws => simp [hc] at h
    | null =>
      simp only [hc] at h
      simp [h]
    | device dev =>
      simp only [hc] at h
      simp [h.1, h.2]

theorem scan_window_succ (hub : device_hub) (i k : Nat) :
    hub.scan_window i (k + 1) = hub.scan_index i :: hub.scan_window (i + 1) k := by
  simp [device_hub.scan_window, List.range_succ_eq_map, Function.comp_def,
    Nat.add_assoc, Nat.add_comm 1]

theorem scan_window_zero (hub : device_hub) (i : Nat) : hub.scan_window i 0 = [] := rfl

/-- A candidate that is not passed over ends the loop, whatever the number
of candidates still to come. -/
theorem scan_succ_of_not_passed_over (hub : device_hub) (serial : String)
    (remaining i : Nat) (hn : hub._device_list.length ≠ 0)
    (h : ¬ hub.passed_over serial (hub.scan_index i)) :
    hub.scan serial (remaining + 1) i = hub.scan serial 1 i ∧
      (hub.scan serial 1 i).opened = [hub.scan_index i] := by
  obtain ⟨r, hc⟩ := create_at_scan_index hub i hn
  unfold device_hub.passed_over at h
  rw [scan_succ hub serial remaining i r hc, scan_succ hub serial 0 i r hc]
  cases r with
  | throws => simp
  | null =>
    simp only [hc] at h
    have h' : serial.length > 0 := Nat.pos_of_ne_zero h
    simp [h']
  | device dev =>
    simp only [hc, not_and, not_not] at h
    by_cases hs : serial.length > 0
    · simp [hs, h hs]
    · simp [hs]

/-- The loop passes over candidates until the first one that is not passed
over, and ends there; or it passes over all of them and ends with null. -/
theorem scan_cases (hub : device_hub) (serial : String)
    (hn : hub._device_list.length ≠ 0) : ∀ (remaining i : Nat),
    (∃ k, k < remaining ∧
        (∀ j, j < k → hub.passed_over serial (hub.scan_index (i + j))) ∧
        ¬ hub.passed_over serial (hub.scan_index (i + k)) ∧
        (hub.scan serial remaining i).opened = hub.scan_window i (k + 1) ∧
        (hub.scan serial remaining i).res = (hub.scan serial 1 (i + k)).res)
    ∨ ((∀ j, j < remaining → hub.passed_over serial (hub.scan_index (i + j))) ∧
        (hub.scan serial remaining i).opened = hub.scan_window i remaining ∧
        (hub.scan serial remaining i).res = .returned none) := by
  intro remaining
  induction remaining with
  | zero =>
    intro i
    right
    exact ⟨fun j hj => absurd hj (Nat.not_lt_zero j), rfl, rfl⟩
  | succ rem ih =>
    intro i
    by_cases hp : hub.passed_over serial (hub.scan_index i)
    · rw [scan_succ_of_passed_over hub serial rem i hp]
      have shift : ∀ j, i + 1 + j = i + (j + 1) := fun j => by omega
      rcases ih (i + 1) with ⟨k, hk, hbefore, hat, hopened, hres⟩ | ⟨hall, hopened, hres⟩
      · left
        refine ⟨k + 1, by omega, ?_, ?_, ?_, ?_⟩
        · intro j hj
          cases j with
          | zero => simpa using hp
          | succ j =>
            have := hbefore j (by omega)
            rwa [shift] at this
        · rwa [shift] at hat
        · simp [scan_result.after, hopened, scan_window_succ hub i (k + 1)]
        · simp only [scan_result.after, hres, shift]
      · right
        refine ⟨?_, ?_, ?_⟩
        · intro j hj
          cases j with
          | zero => simpa using hp
          | succ j =>
            have := hall j (by omega)
            rwa [shift] at this
        · simp [scan_result.after, hopened, scan_window_succ hub i rem]
        · simp only [scan_result.after, hres]
    · left
      obtain ⟨heq, hop⟩ := scan_succ_of_not_passed_over hub serial rem i hn hp
      refine ⟨0, by omega, fun j hj => absurd hj (Nat.not_lt_zero j), by simpa using hp, ?_, ?_⟩
      · rw [heq, hop]
        rfl
      · rw [heq]
        rfl

/-! ## From the loop to `create_device` -/

theorem scan_empty (hub : device_hub) (serial : String)
    (h0 : hub._device_list.length = 0) :
    hub.scan serial hub._device_list.length 0 = { opened := [], res := .returned none } := by
  rw [h0]
  rfl

theorem create_device_opened (hub : device_hub) (serial : String) (cycle : Bool) :
    (hub.create_device serial cycle).opened =
      (hub.scan serial hub._device_list.length 0).opened := by
  unfold device_hub.create_device
  simp only
  split
  · split
    · split <;> rfl
    · rfl
  · rfl

theorem create_device_res (hub : device_hub) (serial : String) (cycle : Bool) :
    (hub.create_device serial cycle).res =
      (hub.scan serial hub._device_list.length 0).res := by
  by_cases h0 : hub._device_list.length = 0
  · unfold device_hub.create_device
    simp only [scan_empty hub serial h0]
  · unfold device_hub.create_device
    simp only [h0, if_false]
    split
    · next dev hdev =>
      split <;> simp [hdev]
    · rfl

theorem create_device_hub (hub : device_hub) (serial : String) (cycle : Bool) :
    (hub.create_device serial cycle).hub =
      match (hub.create_device serial cycle).res, cycle with
      | .returned (some _), true =>
        { hub with _camera_index := (hub._camera_index + 1) % hub._device_list.length }
      | _, _ => hub := by
  by_cases h0 : hub._device_list.length = 0
  · unfold device_hub.create_device
    simp only [scan_empty hub serial h0]
  · unfold device_hub.create_device
    simp only [h0, if_false]
    split
    · next dev hdev =>
      cases cycle <;> simp
    · next other hother =>
      cases hres : (hub.scan serial hub._device_list.length 0).res with
      | returned v =>
        cases v with
        | none => simp
        | some dev => exact absurd hres (hother dev)
      | thrown => simp
      | undefined f => simp

/-- The case analysis of the loop, for a whole call. -/
theorem create_device_cases (hub : device_hub) (serial : String) (cycle : Bool) :
    (∃ k, k < hub._device_list.length ∧
        (∀ j, j < k → hub.passed_over serial (hub.scan_index j)) ∧
        ¬ hub.passed_over serial (hub.scan_index k) ∧
        (hub.create_device serial cycle).opened = hub.scan_positions (k + 1) ∧
        (hub.create_device serial cycle).res = (hub.scan serial 1 k).res)
    ∨ ((∀ j, j < hub._device_list.length → hub.passed_over serial (hub.scan_index j)) ∧
        (hub.create_device serial cycle).opened =
          hub.scan_positions hub._device_list.length ∧
        (hub.create_device serial cycle).res = .returned none) := by
  rw [create_device_opened, create_device_res]
  by_cases h0 : hub._device_list.length = 0
  · right
    rw [scan_empty hub serial h0, h0]
    exact ⟨fun j hj => absurd hj (Nat.not_lt_zero j), rfl, rfl⟩
  · have h := scan_cases hub serial h0 hub._device_list.length 0
    simpa only [Nat.zero_add, device_hub.scan_positions] using h

/-- Ending of a one-candidate loop on a candidate that opens to a handle and
is not passed over. -/
theorem scan_one_device (hub : device_hub) (serial : String) (i : Nat)
    (dev : device_interface)
    (hc : hub.create_at (hub.scan_index i) = some (.device dev))
    (h : ¬ hub.passed_over serial (hub.scan_index i)) :
    (hub.scan serial 1 i).res = .returned (some dev) ∧
      (serial.length > 0 → serial = dev.serial_number) := by
  unfold device_hub.passed_over at h
  simp only [hc, not_and, not_not] at h
  rw [scan_succ hub serial 0 i _ hc]
  by_cases hs : serial.length > 0
  · simp [hs, h hs]
  · simp [hs]

theorem scan_one_throws (hub : device_hub) (serial : String) (i : Nat)
    (hc : hub.create_at (hub.scan_index i) = some .throws) :
    (hub.scan serial 1 i).res = .thrown := by
  rw [scan_succ hub serial 0 i _ hc]

theorem scan_one_null (hub : device_hub) (serial : String) (i : Nat)
    (hc : hub.create_at (hub.scan_index i) = some .null)
    (h : ¬ hub.passed_over serial (hub.scan_index i)) :
    (hub.scan serial 1 i).res = .undefined .null_dereference := by
  unfold device_hub.passed_over at h
  simp only [hc] at h
  rw [scan_succ hub serial 0 i _ hc]
  simp [Nat.pos_of_ne_zero h]

/-! ## List positions and scan order -/

theorem create_at_of_mem (hub : device_hub) (d : device_info)
    (hd : d ∈ hub._device_list) :
    ∃ p, p < hub._device_list.length ∧
      hub.create_at p = some (d.create_device hub._register_device_notifications) := by
  obtain ⟨p, hp, rfl⟩ := List.getElem_of_mem hd
  exact ⟨p, hp, by simp [device_hub.create_at, List.getElem?_eq_getElem hp]⟩

theorem mem_of_create_at (hub : device_hub) (p : Nat) (r : create_result)
    (h : hub.create_at p = some r) :
    ∃ d, d ∈ hub._device_list ∧
      d.create_device hub._register_device_notifications = r := by
  obtain ⟨d, hd, hr⟩ := create_at_eq_some hub p r h
  exact ⟨d, List.getElem?_mem hd, hr⟩

/-- Every list position is the position of one of the first `length`
candidates of a scan. -/
theorem scan_index_surjective (hub : device_hub) (p : Nat)
    (hp : p < hub._device_list.length) :
    ∃ j, j < hub._device_list.length ∧ hub.scan_index j = p := by
  have hpos : 0 < hub._device_list.length := by omega
  have hmod := Nat.mod_lt hub._camera_index hpos
  have hdiv := Nat.div_add_mod hub._camera_index hub._device_list.length
  generalize hub._device_list.length * (hub._camera_index / hub._device_list.length) = q at hdiv
  unfold device_hub.scan_index
  by_cases hle : hub._camera_index % hub._device_list.length ≤ p
  · refine ⟨p - hub._camera_index % hub._device_list.length, by omega, ?_⟩
    have e : hub._camera_index + (p - hub._camera_index % hub._device_list.length) =
        hub._camera_index / hub._device_list.length * hub._device_list.length + p := by
      have := Nat.div_add_mod hub._camera_index hub._device_list.length
      rw [Nat.mul_comm] at this
      omega
    rw [e, Nat.mul_add_mod_of_lt hp]
  · refine ⟨p + hub._device_list.length - hub._camera_index % hub._device_list.length,
      by omega, ?_⟩
    have e : hub._camera_index +
        (p + hub._device_list.length - hub._camera_index % hub._device_list.length) =
        (hub._camera_index / hub._device_list.length + 1) * hub._device_list.length + p := by
      have := Nat.div_add_mod hub._camera_index hub._device_list.length
      rw [Nat.mul_comm] at this
      rw [Nat.add_mul]
      omega
    rw [e, Nat.mul_add_mod_of_lt hp]

theorem handle_at_eq_some (hub : device_hub) (p : Nat) (dev : device_interface) :
    hub.handle_at p = some dev ↔ hub.create_at p = some (.device dev) := by
  unfold device_hub.handle_at
  cases hc : hub.create_at p with
  | none => simp
  | some r => cases r <;> simp

/-! ## Selection by serial number -/

/-- C1. `create_device` with a non-empty serial, on a list whose candidates
all open to a handle: the call returns the handle of the first candidate, in
the scan order `list[c], list[(c+1) % n], ...`, whose serial number equals the
target, it opens exactly the candidates up to and including that one, and it
returns null exactly when no device of the list has that serial number. -/
theorem create_device_serial_first_match (hub : device_hub) (s : String)
    (cycle : Bool) (hs : s.length > 0)
    (hopen : ∀ d ∈ hub._device_list, ∃ dev,
      d.create_device hub._register_device_notifications = .device dev) :
    ((∃ k dev, k < hub._device_list.length ∧
        hub.handle_at (hub.scan_index k) = some dev ∧ dev.serial_number = s ∧
        (∀ j dev', j < k → hub.handle_at (hub.scan_index j) = some dev' →
          dev'.serial_number ≠ s) ∧
        (hub.create_device s cycle).res = .returned (some dev) ∧
        (hub.create_device s cycle).opened = hub.scan_positions (k + 1))
      ∨ ((hub.create_device s cycle).res = .returned none ∧
        (hub.create_device s cycle).opened =
          hub.scan_positions hub._device_list.length))
    ∧ ((hub.create_device s cycle).res = .returned none ↔
        ∀ d ∈ hub._device_list, ∀ dev,
          d.create_device hub._register_device_notifications = .device dev →
          dev.serial_number ≠ s) := by
  have hbefore : ∀ p dev', hub.passed_over s p →
      hub.handle_at p = some dev' → dev'.serial_number ≠ s := by
    intro p dev' hp hh
    rw [handle_at_eq_some] at hh
    unfold device_hub.passed_over at hp
    simp only [hh] at hp
    exact fun e => hp.2 e.symm
  rcases create_device_cases hub s cycle with
    ⟨k, hk, hpassed, hat, hopened, hres⟩ | ⟨hall, hopened, hres⟩
  · have hn : hub._device_list.length ≠ 0 := by omega
    obtain ⟨r, hr⟩ := create_at_scan_index hub k hn
    obtain ⟨d, hd, hdr⟩ := mem_of_create_at hub _ r hr
    obtain ⟨dev, hdev⟩ := hopen d hd
    rw [hdr] at hdev
    subst hdev
    obtain ⟨hone, hser⟩ := scan_one_device hub s k dev hr hat
    have hfound : (hub.create_device s cycle).res = .returned (some dev) := by
      rw [hres, hone]
    refine ⟨Or.inl ⟨k, dev, hk, (handle_at_eq_some hub _ dev).mpr hr, (hser hs).symm,
      fun j dev' hj hh => hbefore _ dev' (hpassed j hj) hh, hfound, hopened⟩, ?_⟩
    constructor
    · intro hnone
      rw [hfound] at hnone
      cases hnone
    · intro hno
      exact absurd (hser hs).symm (hno d hd dev hdr)
  · refine ⟨Or.inr ⟨hres, hopened⟩, ?_⟩
    constructor
    · intro _ d hd dev hdev
      obtain ⟨p, hp, hcp⟩ := create_at_of_mem hub d hd
      obtain ⟨j, hj, hjp⟩ := scan_index_surjective hub p hp
      rw [hdev] at hcp
      have := hall j hj
      rw [hjp] at this
      exact hbefore p dev this ((handle_at_eq_some hub p dev).mpr hcp)
    · intro _
      exact hres

theorem hub_AB_opens : ∀ d ∈ hub_AB._device_list, ∃ dev,
    d.create_device hub_AB._register_device_notifications = .device dev := by
  intro d hd
  have hl : hub_AB._device_list = [device_A, device_B] := rfl
  rw [hl] at hd
  simp only [List.mem_cons, List.mem_singleton, List.not_mem_nil, or_false] at hd
  rcases hd with rfl | rfl <;> exact ⟨_, rfl⟩

/-- C1 at the hub `[A, B]` with cursor 0 and target "S2", where the first
match is B, the second candidate of the scan. -/
theorem create_device_serial_first_match_witness :
    ("S2".length > 0 ∧
      ∀ d ∈ hub_AB._device_list, ∃ dev,
        d.create_device hub_AB._register_device_notifications = .device dev) ∧
    ((∃ k dev, k < hub_AB._device_list.length ∧
        hub_AB.handle_at (hub_AB.scan_index k) = some dev ∧ dev.serial_number = "S2" ∧
        (∀ j dev', j < k → hub_AB.handle_at (hub_AB.scan_index j) = some dev' →
          dev'.serial_number ≠ "S2") ∧
        (hub_AB.create_device "S2" false).res = .returned (some dev) ∧
        (hub_AB.create_device "S2" false).opened = hub_AB.scan_positions (k + 1))
      ∨ ((hub_AB.create_device "S2" false).res = .returned none ∧
        (hub_AB.create_device "S2" false).opened =
          hub_AB.scan_positions hub_AB._device_list.length)) :=
  ⟨⟨by decide, hub_AB_opens⟩,
    (create_device_serial_first_match hub_AB "S2" false (by decide) hub_AB_opens).1⟩

/-! ## Selection without a serial number -/

/-- C2. `create_device` with an empty serial, on a list whose candidates each
give a handle or null when opened: the call returns the handle of the first
candidate in scan order whose open gave a handle, it opens exactly the
candidates up to and including that one, and it returns null exactly when
no candidate gives a handle. -/
theorem create_device_no_serial_first_opened (hub : device_hub) (cycle : Bool)
    (hnothrow : ∀ d ∈ hub._device_list,
      d.create_device hub._register_device_notifications ≠ .throws) :
    ((∃ k dev, k < hub._device_list.length ∧
        hub.handle_at (hub.scan_index k) = some dev ∧
        (∀ j, j < k → hub.handle_at (hub.scan_index j) = none) ∧
        (hub.create_device "" cycle).res = .returned (some dev) ∧
        (hub.create_device "" cycle).opened = hub.scan_positions (k + 1))
      ∨ ((hub.create_device "" cycle).res = .returned none ∧
        (hub.create_device "" cycle).opened =
          hub.scan_positions hub._device_list.length))
    ∧ ((hub.create_device "" cycle).res = .returned none ↔
        ∀ d ∈ hub._device_list, ∀ dev,
          d.create_device hub._register_device_notifications ≠ .device dev) := by
  have hempty : ¬ ("".length > 0) := by decide
  have hbefore : ∀ p, hub.passed_over "" p → hub.create_at p = some .null := by
    intro p hp
    unfold device_hub.passed_over at hp
    cases hc : hub.create_at p with
    | none => simp [hc] at hp
    | some r =>
      cases r with
      | device dev => simp [hc] at hp
      | null => rfl
      | throws => simp [hc] at hp
  have hnone : ∀ p, hub.passed_over "" p → hub.handle_at p = none := by
    intro p hp
    unfold device_hub.handle_at
    rw [hbefore p hp]
  rcases create_device_cases hub "" cycle with
    ⟨k, hk, hpassed, hat, hopened, hres⟩ | ⟨hall, hopened, hres⟩
  · have hn : hub._device_list.length ≠ 0 := by omega
    obtain ⟨r, hr⟩ := create_at_scan_index hub k hn
    obtain ⟨d, hd, hdr⟩ := mem_of_create_at hub _ r hr
    have hdev : ∃ dev, r = .device dev := by
      cases r with
      | device dev => exact ⟨dev, rfl⟩
      | null =>
        exfalso
        apply hat
        unfold device_hub.passed_over
        simp [hr]
      | throws => exact absurd hdr (hnothrow d hd)
    obtain ⟨dev, rfl⟩ := hdev
    obtain ⟨hone, _⟩ := scan_one_device hub "" k dev hr hat
    have hfound : (hub.create_device "" cycle).res = .returned (some dev) := by
      rw [hres, hone]
    refine ⟨Or.inl ⟨k, dev, hk, (handle_at_eq_some hub _ dev).mpr hr,
      fun j hj => hnone _ (hpassed j hj), hfound, hopened⟩, ?_⟩
    constructor
    · intro h
      rw [hfound] at h
      cases h
    · intro hno
      exact absurd hdr (hno d hd dev)
  · refine ⟨Or.inr ⟨hres, hopened⟩, ?_⟩
    constructor
    · intro _ d hd dev hdev
      obtain ⟨p, hp, hcp⟩ := create_at_of_mem hub d hd
      obtain ⟨j, hj, hjp⟩ := scan_index_surjective hub p hp
      have := hbefore _ (hall j hj)
      rw [hjp, hcp, hdev] at this
      cases this
    · intro _
      exact hres

theorem hub_null_A_no_throw : ∀ d ∈ hub_null_A._device_list,
    d.create_device hub_null_A._register_device_notifications ≠ .throws := by
  intro d hd
  have hl : hub_null_A._device_list = [device_null, device_A] := rfl
  rw [hl] at hd
  simp only [List.mem_cons, List.mem_singleton, List.not_mem_nil, or_false] at hd
  rcases hd with rfl | rfl <;> exact fun h => by cases h

/-- C2 at the hub `[null, A]` with cursor 0: the first open gives null, the
second gives A. -/
theorem create_device_no_serial_first_opened_witness :
    (∀ d ∈ hub_null_A._device_list,
      d.create_device hub_null_A._register_device_notifications ≠ .throws) ∧
    ((hub_null_A.create_device "" true).res = .returned none ↔
        ∀ d ∈ hub_null_A._device_list, ∀ dev,
          d.create_device hub_null_A._register_device_notifications ≠ .device dev) ∧
    (hub_null_A.create_device "" true).res =
      .returned (some { serial_number := "S1", is_valid := true }) ∧
    (hub_null_A.create_device "" true).opened = [0, 1] :=
  ⟨hub_null_A_no_throw,
    (create_device_no_serial_first_opened hub_null_A true hub_null_A_no_throw).2,
    by decide, by decide⟩

/-! ## Cursor update and round-robin cycling -/

/-- The hub after a call: only the cursor may differ. -/
theorem create_device_state (hub : device_hub) (serial : String)
    (cycle_devices : Bool) :
    (hub.create_device serial cycle_devices).hub =
      { hub with
        _camera_index :=
          if produced_handle (hub.create_device serial cycle_devices).res && cycle_devices
          then (hub._camera_index + 1) % hub._device_list.length
          else hub._camera_index } := by
  rw [create_device_hub]
  cases hres : (hub.create_device serial cycle_devices).res with
  | returned v =>
    cases v <;> cases cycle_devices <;> simp [produced_handle]
  | thrown => simp [produced_handle]
  | undefined f => simp [produced_handle]

/-- C4. `create_device` leaves the device list (and every other member but the
cursor) as it was, and the cursor afterwards is `(cursor + 1) % length` when a
handle was returned and `cycle_devices` is set, and the old cursor in every
other case. In the spec scenario (list `[A, B]`, vendor filter 0, serial "S2",
no cycling) the call returns B and the cursor stays where it was. -/
theorem create_device_cursor_rule (hub : device_hub) (serial : String)
    (cycle_devices : Bool) :
    (hub.create_device serial cycle_devices).hub._device_list = hub._device_list ∧
    (hub.create_device serial cycle_devices).hub._camera_index =
      (if produced_handle (hub.create_device serial cycle_devices).res && cycle_devices
       then (hub._camera_index + 1) % hub._device_list.length
       else hub._camera_index) ∧
    (hub.create_device serial cycle_devices).hub._vid = hub._vid ∧
    (hub.create_device serial cycle_devices).hub._register_device_notifications =
      hub._register_device_notifications ∧
    ((hub_AB.create_device "S2" false).res =
        .returned (some { serial_number := "S2", is_valid := true }) ∧
      (hub_AB.create_device "S2" false).hub._camera_index = hub_AB._camera_index) := by
  have hhub := create_device_state hub serial cycle_devices
  refine ⟨?_, ?_, ?_, ?_, by decide, by decide⟩
  all_goals rw [hhub]

/-- A call without serial whose first candidate opens returns that candidate
and opens nothing else. -/
theorem create_device_first_opens (hub : device_hub) (cycle : Bool)
    (dev : device_interface)
    (h : hub.create_at (hub.scan_index 0) = some (.device dev)) :
    (hub.create_device "" cycle).res = .returned (some dev) ∧
      (hub.create_device "" cycle).opened = [hub.scan_index 0] := by
  have hnot : ¬ hub.passed_over "" (hub.scan_index 0) := by
    intro hp
    unfold device_hub.passed_over at hp
    simp only [h] at hp
    exact absurd hp.1 (by decide)
  have hn := length_ne_zero_of_create_at hub _ _ h
  rcases create_device_cases hub "" cycle with
    ⟨k, _, hpassed, _, hopened, hres⟩ | ⟨hall, _, _⟩
  · cases k with
    | zero =>
      rw [hres, hopened]
      exact ⟨(scan_one_device hub "" 0 dev h hnot).1, rfl⟩
    | succ k => exact absurd (hpassed 0 (by omega)) hnot
  · exact absurd (hall 0 (Nat.pos_of_ne_zero hn)) hnot

theorem cycle_calls_eq (hub : device_hub) (hc : hub._camera_index < hub._device_list.length)
    (hopen : ∀ d ∈ hub._device_list, ∃ dev,
      d.create_device hub._register_device_notifications = .device dev) (k : Nat) :
    hub.cycle_calls k =
      { hub with _camera_index := (hub._camera_index + k) % hub._device_list.length } ∧
    ∃ dev, hub.handle_at ((hub._camera_index + k) % hub._device_list.length) = some dev ∧
      ((hub.cycle_calls k).create_device "" true).res = .returned (some dev) ∧
      ((hub.cycle_calls k).create_device "" true).opened =
        [(hub._camera_index + k) % hub._device_list.length] := by
  have hn : hub._device_list.length ≠ 0 := by omega
  have hpos : 0 < hub._device_list.length := by omega
  induction k with
  | zero =>
    have e : hub.cycle_calls 0 = hub := rfl
    have hmod : (hub._camera_index + 0) % hub._device_list.length = hub._camera_index :=
      Nat.mod_eq_of_lt hc
    rw [e, hmod]
    refine ⟨rfl, ?_⟩
    have hlt : hub._camera_index < hub._device_list.length := hc
    obtain ⟨r, hr⟩ := create_at_scan_index hub 0 hn
    have hidx : hub.scan_index 0 = hub._camera_index := hmod
    obtain ⟨d, hd, hdr⟩ := mem_of_create_at hub _ r hr
    obtain ⟨dev, hdev⟩ := hopen d hd
    rw [hdr] at hdev
    subst hdev
    obtain ⟨h1, h2⟩ := create_device_first_opens hub true dev hr
    rw [hidx] at hr h2
    exact ⟨dev, (handle_at_eq_some hub _ dev).mpr hr, h1, h2⟩
  | succ k ih =>
    obtain ⟨hstate, dev, _, hres, _⟩ := ih
    have hnext : hub.cycle_calls (k + 1) =
        { hub with
          _camera_index := (hub._camera_index + (k + 1)) % hub._device_list.length } := by
      show ((hub.cycle_calls k).create_device "" true).hub = _
      rw [create_device_hub, hres, hstate]
      simp only [Nat.mod_add_mod, Nat.add_assoc]
    refine ⟨hnext, ?_⟩
    rw [hnext]
    generalize hh : ({ hub with
      _camera_index := (hub._camera_index + (k + 1)) % hub._device_list.length } :
      device_hub) = hub'
    have hlist : hub'._device_list = hub._device_list := by rw [← hh]
    have hreg : hub'._register_device_notifications =
        hub._register_device_notifications := by rw [← hh]
    have hcur : hub'._camera_index =
        (hub._camera_index + (k + 1)) % hub._device_list.length := by rw [← hh]
    have hn' : hub'._device_list.length ≠ 0 := by rw [hlist]; exact hn
    have hidx : hub'.scan_index 0 =
        (hub._camera_index + (k + 1)) % hub._device_list.length := by
      unfold device_hub.scan_index
      rw [hcur, hlist, Nat.add_zero, Nat.mod_mod]
    have hcreate : ∀ p, hub'.create_at p = hub.create_at p := by
      intro p
      unfold device_hub.create_at
      rw [hlist, hreg]
    obtain ⟨r, hr⟩ := create_at_scan_index hub' 0 hn'
    obtain ⟨d, hd, hdr⟩ := mem_of_create_at hub' _ r hr
    rw [hlist] at hd
    rw [hreg] at hdr
    obtain ⟨dev', hdev'⟩ := hopen d hd
    rw [hdr] at hdev'
    subst hdev'
    obtain ⟨h1, h2⟩ := create_device_first_opens hub' true dev' hr
    rw [hidx] at h2
    rw [hidx, hcreate] at hr
    exact ⟨dev', (handle_at_eq_some hub _ dev').mpr hr, h1, h2⟩

/-- C3. On a list of length `n` whose devices all open, starting from a cursor
`c < n` (so the list is not empty), the `k`-th consecutive call `create_device("", true)` (k = 0, 1, ...)
returns the device at index `(c + k) % n`, opening only that one, and after
`n` such calls the hub, cursor included, is what it was at the start. -/
theorem cycling_round_robin (hub : device_hub)
    (hc : hub._camera_index < hub._device_list.length)
    (hopen : ∀ d ∈ hub._device_list, ∃ dev,
      d.create_device hub._register_device_notifications = .device dev) :
    (∀ k, ∃ dev,
      hub.handle_at ((hub._camera_index + k) % hub._device_list.length) = some dev ∧
      ((hub.cycle_calls k).create_device "" true).res = .returned (some dev) ∧
      ((hub.cycle_calls k).create_device "" true).opened =
        [(hub._camera_index + k) % hub._device_list.length]) ∧
    (hub.cycle_calls hub._device_list.length)._camera_index = hub._camera_index ∧
    hub.cycle_calls hub._device_list.length = hub := by
  have hend : hub.cycle_calls hub._device_list.length = hub := by
    rw [(cycle_calls_eq hub hc hopen hub._device_list.length).1,
      Nat.add_mod_right, Nat.mod_eq_of_lt hc]
  exact ⟨fun k => (cycle_calls_eq hub hc hopen k).2, by rw [hend], hend⟩

/-- C3 at the hub `[A, B]` with cursor 0: the calls return A, B, A, ... and
after two calls the cursor is 0 again. -/
theorem cycling_round_robin_witness :
    (hub_AB._camera_index < hub_AB._device_list.length ∧
      ∀ d ∈ hub_AB._device_list, ∃ dev,
        d.create_device hub_AB._register_device_notifications = .device dev) ∧
    ((∀ k, ∃ dev,
      hub_AB.handle_at ((hub_AB._camera_index + k) % hub_AB._device_list.length) =
        some dev ∧
      ((hub_AB.cycle_calls k).create_device "" true).res = .returned (some dev) ∧
      ((hub_AB.cycle_calls k).create_device "" true).opened =
        [(hub_AB._camera_index + k) % hub_AB._device_list.length]) ∧
    (hub_AB.cycle_calls hub_AB._device_list.length)._camera_index =
      hub_AB._camera_index ∧
    hub_AB.cycle_calls hub_AB._device_list.length = hub_AB) :=
  ⟨⟨by decide, hub_AB_opens⟩, cycling_round_robin hub_AB (by decide) hub_AB_opens⟩

/-! ## The vendor filter -/

/-- C5. For a non-zero vendor id, `filter_by_vid` returns exactly the
descriptors that have a UVC sub-component with that vendor id: the sublist of
the input, in the input's order, each occurrence kept once however many of
its sub-components match. -/
theorem filter_by_vid_nonzero (devices : List device_info) (vid : Int)
    (hv : vid ≠ 0) :
    filter_by_vid devices vid =
      devices.filter
        (fun d => decide (∃ uvc ∈ d.get_device_data.uvc_devices, uvc.vid = vid)) := by
  rw [filter_by_vid_eq_filter]
  congr 1
  funext d
  have h := uvc_loop_iff vid d.get_device_data.uvc_devices
  simp only [hv, or_false] at h
  by_cases hex : ∃ uvc ∈ d.get_device_data.uvc_devices, uvc.vid = vid
  · simp only [hex, decide_True]
    exact h.mpr hex
  · simp only [hex, decide_False]
    exact Bool.eq_false_iff.mpr (fun hl => hex (h.mp hl))

/-- C5 at vendor id 0x8086, on a list with a descriptor that matches twice,
one with another vendor id, one without sub-components, and A. -/
theorem filter_by_vid_nonzero_witness :
    ((0x8086 : Int) ≠ 0) ∧
    filter_by_vid
      [⟨⟨[⟨0x8086⟩, ⟨0x8086⟩]⟩, fun _ => .null⟩, ⟨⟨[⟨0x045e⟩]⟩, fun _ => .null⟩,
        device_bare, device_A] 0x8086 =
      List.filter
        (fun d => decide (∃ uvc ∈ d.get_device_data.uvc_devices, uvc.vid = 0x8086))
        [⟨⟨[⟨0x8086⟩, ⟨0x8086⟩]⟩, fun _ => .null⟩, ⟨⟨[⟨0x045e⟩]⟩, fun _ => .null⟩,
          device_bare, device_A] :=
  ⟨by decide, filter_by_vid_nonzero _ _ (by decide)⟩

/-- With vendor id 0 the filter keeps the descriptors that have at least one
UVC sub-component, and only those. -/
theorem filter_by_vid_zero (devices : List device_info) :
    filter_by_vid devices 0 =
      devices.filter (fun d => !d.get_device_data.uvc_devices.isEmpty) := by
  rw [filter_by_vid_eq_filter]
  congr 1
  funext d
  cases h : d.get_device_data.uvc_devices with
  | nil => rfl
  | cons u rest => simp [uvc_loop]

/-- C6, the code at the failing input. With vendor id 0 the test `vid == 0`
is only reached inside the loop over the UVC sub-components, so a descriptor
without any is dropped: `[A, bare, B]` is filtered to `[A, B]`, and the list
made of the bare descriptor alone is filtered to the empty list. -/
theorem filter_by_vid_zero_drops_bare :
    filter_by_vid [device_A, device_bare, device_B] 0 = [device_A, device_B] ∧
    filter_by_vid [device_bare] 0 = [] ∧
    filter_by_vid [device_bare] 0 ≠ [device_bare] :=
  ⟨rfl, rfl, fun h => by cases h⟩

/-! ## The cursor invariant -/

theorem create_device_list (hub : device_hub) (serial : String) (cycle : Bool) :
    (hub.create_device serial cycle).hub._device_list = hub._device_list := by
  rw [create_device_state]

/-- C7. In every hub state reachable from construction (cursor initially 0)
by hotplug callbacks, returning `create_device` calls and changes of what the
listed descriptors open to, a non-empty device list has the cursor among its
positions: `cursor < length` (the cursor is a natural number, so `0 <= cursor`
holds as well). -/
theorem cursor_invariant (vid : Int) (register_device_notifications : Bool)
    (hub : device_hub) (hreach : reachable vid register_device_notifications hub)
    (hne : hub._device_list ≠ []) :
    0 ≤ hub._camera_index ∧ hub._camera_index < hub._device_list.length := by
  refine ⟨Nat.zero_le _, ?_⟩
  induction hreach with
  | construct query_devices =>
    exact List.length_pos.mpr hne
  | hotplug hub query_devices _ ih =>
    cases query_devices with
    | none => exact ih hne
    | some devices => exact List.length_pos.mpr hne
  | select hub serial cycle value _ hres ih =>
    have hlist := create_device_list hub serial cycle
    rw [hlist] at hne ⊢
    rw [create_device_state]
    show (if _ then _ else _) < _
    split
    · exact Nat.mod_lt _ (List.length_pos.mpr hne)
    · exact ih hne
  | reopen hub list _ hsame ih =>
    have hlen : list.length = hub._device_list.length := by
      have := congrArg List.length hsame
      simpa using this
    have hne' : hub._device_list ≠ [] := by
      intro h
      rw [h] at hlen
      exact hne (List.length_eq_zero.mp hlen)
    show hub._camera_index < list.length
    rw [hlen]
    exact ih hne'

theorem reachable_after_cycling :
    reachable 0 true (hub_AB.create_device "" true).hub :=
  reachable.select hub_AB "" true _ (reachable.construct _) rfl

/-- C7 at the hub `[A, B]` after one cycling call: the cursor is 1. -/
theorem cursor_invariant_witness :
    (reachable 0 true (hub_AB.create_device "" true).hub ∧
      (hub_AB.create_device "" true).hub._device_list ≠ []) ∧
    (0 ≤ (hub_AB.create_device "" true).hub._camera_index ∧
      (hub_AB.create_device "" true).hub._camera_index <
        (hub_AB.create_device "" true).hub._device_list.length) ∧
    (hub_AB.create_device "" true).hub._camera_index = 1 :=
  ⟨⟨reachable_after_cycling, fun h => by cases h⟩,
    cursor_invariant 0 true _ reachable_after_cycling (fun h => by cases h), rfl⟩

/-! ## Candidates that do not open -/

/-- The call ends at the first candidate that is not passed over. -/
theorem create_device_at_first (hub : device_hub) (serial : String) (cycle : Bool)
    (k : Nat) (hk : k < hub._device_list.length)
    (hbefore : ∀ j, j < k → hub.passed_over serial (hub.scan_index j))
    (hat : ¬ hub.passed_over serial (hub.scan_index k)) :
    (hub.create_device serial cycle).opened = hub.scan_positions (k + 1) ∧
      (hub.create_device serial cycle).res = (hub.scan serial 1 k).res := by
  rcases create_device_cases hub serial cycle with
    ⟨k', _, hpassed, hat', hopened, hres⟩ | ⟨hall, _, _⟩
  · rcases Nat.lt_trichotomy k k' with hlt | heq | hgt
    · exact absurd (hpassed k hlt) hat
    · subst heq
      exact ⟨hopened, hres⟩
    · exact absurd (hbefore k' hgt) hat'
  · exact absurd (hall k hk) hat

/-- A call that passes over every candidate returns null. -/
theorem create_device_all_passed (hub : device_hub) (serial : String) (cycle : Bool)
    (hall : ∀ j, j < hub._device_list.length →
      hub.passed_over serial (hub.scan_index j)) :
    (hub.create_device serial cycle).opened =
        hub.scan_positions hub._device_list.length ∧
      (hub.create_device serial cycle).res = .returned none := by
  rcases create_device_cases hub serial cycle with
    ⟨k, hk, _, hat, _, _⟩ | ⟨_, hopened, hres⟩
  · exact absurd (hall k hk) hat
  · exact ⟨hopened, hres⟩

/-- A call that does not return a handle leaves the hub as it was. -/
theorem create_device_hub_of_no_handle (hub : device_hub) (serial : String)
    (cycle : Bool) (h : produced_handle (hub.create_device serial cycle).res = false) :
    (hub.create_device serial cycle).hub = hub := by
  rw [create_device_state, h]
  rfl

/-- C8 as stated fails: on the list `[throwing, B]` with cursor 0 the open of
the first candidate throws, the call ends by that exception, B is never
opened and is not returned. -/
theorem create_device_throw_not_absorbed :
    (hub_throwing_B.create_device "" false).res = .thrown ∧
    (hub_throwing_B.create_device "" false).opened = [0] ∧
    (hub_throwing_B.create_device "" false).res ≠
      .returned (some { serial_number := "S2", is_valid := true }) := by
  decide

/-- C8, amended. An open that throws is not absorbed: when the scan reaches a
candidate whose open throws, the call ends by that exception, no later
candidate is opened and the hub is unchanged. An open that returns null is
absorbed when the serial is empty: the candidate is skipped, the first
candidate after the nulls that opens is returned, and when every candidate
opens to null the call returns null and leaves the hub unchanged, the result
it also gives on the empty list. -/
theorem create_device_open_failures (hub : device_hub) (serial : String)
    (cycle : Bool) :
    (∀ k, k < hub._device_list.length →
      (∀ j, j < k → hub.passed_over serial (hub.scan_index j)) →
      hub.create_at (hub.scan_index k) = some .throws →
      (hub.create_device serial cycle).res = .thrown ∧
      (hub.create_device serial cycle).opened = hub.scan_positions (k + 1) ∧
      (hub.create_device serial cycle).hub = hub) ∧
    (serial.length = 0 → ∀ k dev, k < hub._device_list.length →
      (∀ j, j < k → hub.create_at (hub.scan_index j) = some .null) →
      hub.create_at (hub.scan_index k) = some (.device dev) →
      (hub.create_device serial cycle).res = .returned (some dev) ∧
      (hub.create_device serial cycle).opened = hub.scan_positions (k + 1)) ∧
    (serial.length = 0 →
      (∀ d ∈ hub._device_list,
        d.create_device hub._register_device_notifications = .null) →
      (hub.create_device serial cycle).res = .returned none ∧
      (hub.create_device serial cycle).opened =
        hub.scan_positions hub._device_list.length ∧
      (hub.create_device serial cycle).hub = hub) ∧
    (hub._device_list = [] →
      (hub.create_device serial cycle).res = .returned none ∧
      (hub.create_device serial cycle).opened = [] ∧
      (hub.create_device serial cycle).hub = hub) := by
  have hnull : serial.length = 0 → ∀ p, hub.create_at p = some .null →
      hub.passed_over serial p := by
    intro hs p hp
    unfold device_hub.passed_over
    simpa only [hp] using hs
  refine ⟨?_, ?_, ?_, ?_⟩
  · intro k hk hbefore hthrows
    have hat : ¬ hub.passed_over serial (hub.scan_index k) := by
      intro hp
      unfold device_hub.passed_over at hp
      simp only [hthrows] at hp
    obtain ⟨hopened, hres⟩ := create_device_at_first hub serial cycle k hk hbefore hat
    rw [scan_one_throws hub serial k hthrows] at hres
    exact ⟨hres, hopened, create_device_hub_of_no_handle hub serial cycle (by rw [hres]; rfl)⟩
  · intro hs k dev hk hbefore hdev
    have hat : ¬ hub.passed_over serial (hub.scan_index k) := by
      intro hp
      unfold device_hub.passed_over at hp
      simp only [hdev] at hp
      omega
    obtain ⟨hopened, hres⟩ := create_device_at_first hub serial cycle k hk
      (fun j hj => hnull hs _ (hbefore j hj)) hat
    rw [(scan_one_device hub serial k dev hdev hat).1] at hres
    exact ⟨hres, hopened⟩
  · intro hs hallnull
    have hall : ∀ j, j < hub._device_list.length →
        hub.passed_over serial (hub.scan_index j) := by
      intro j hj
      obtain ⟨r, hr⟩ := create_at_scan_index hub j (by omega)
      obtain ⟨d, hd, hdr⟩ := mem_of_create_at hub _ r hr
      rw [hallnull d hd] at hdr
      subst hdr
      exact hnull hs _ hr
    obtain ⟨hopened, hres⟩ := create_device_all_passed hub serial cycle hall
    exact ⟨hres, hopened, create_device_hub_of_no_handle hub serial cycle (by rw [hres]; rfl)⟩
  · intro hnil
    have hall : ∀ j, j < hub._device_list.length →
        hub.passed_over serial (hub.scan_index j) := by
      intro j hj
      rw [hnil] at hj
      exact absurd hj (Nat.not_lt_zero j)
    obtain ⟨hopened, hres⟩ := create_device_all_passed hub serial cycle hall
    refine ⟨hres, ?_, create_device_hub_of_no_handle hub serial cycle (by rw [hres]; rfl)⟩
    rw [hopened, hnil]
    rfl

/-- C8, amended, at concrete hubs: `[throwing, B]` ends by the exception,
`[null, A]` skips the null and returns A. -/
theorem create_device_open_failures_witness :
    ((hub_throwing_B.create_device "" false).res = .thrown ∧
      (hub_throwing_B.create_device "" false).opened = hub_throwing_B.scan_positions 1 ∧
      (hub_throwing_B.create_device "" false).hub = hub_throwing_B) ∧
    ((hub_null_A.create_device "" false).res =
        .returned (some { serial_number := "S1", is_valid := true }) ∧
      (hub_null_A.create_device "" false).opened = hub_null_A.scan_positions 2) :=
  ⟨(create_device_open_failures hub_throwing_B "" false).1 0 (by decide)
      (fun j hj => absurd hj (Nat.not_lt_zero j)) rfl,
    (create_device_open_failures hub_null_A "" false).2.1 rfl 1 _ (by decide)
      (fun j hj => by
        have hj0 : j = 0 := by omega
        subst hj0
        rfl) rfl⟩

/-! ## The devices-changed callback -/

theorem reachable_members (vid : Int) (register_device_notifications : Bool)
    (hub : device_hub) (hreach : reachable vid register_device_notifications hub) :
    hub._vid = vid ∧
      hub._register_device_notifications = register_device_notifications := by
  induction hreach with
  | construct query_devices => exact ⟨rfl, rfl⟩
  | hotplug hub query_devices _ ih =>
    cases query_devices with
    | none => exact ih
    | some devices => exact ih
  | select hub serial cycle value _ _ ih =>
    rw [create_device_state]
    exact ih
  | reopen hub list _ _ ih => exact ih

/-- C9. After construction the device list is the vendor-filtered result of
the provider query. In every reachable hub state (any list, any cursor), a
run of the hotplug callback that completes leaves as device list the
vendor-filtered result of the provider query made by that run, filtered with
the vendor id given at construction, and leaves the cursor at 0; and the
callback completes whenever its query returns. -/
theorem refresh_postcondition (query_devices : List device_info) (vid : Int)
    (register_device_notifications : Bool) :
    (device_hub.construct query_devices vid register_device_notifications)._device_list =
      filter_by_vid query_devices vid ∧
    (∀ hub, reachable vid register_device_notifications hub →
      ∀ query : Option (List device_info),
        (hub.devices_changed_callback query).res = .returned () →
        ∃ devices, query = some devices ∧
          (hub.devices_changed_callback query).hub._device_list =
            filter_by_vid devices vid ∧
          (hub.devices_changed_callback query).hub._camera_index = 0) ∧
    (∀ hub, reachable vid register_device_notifications hub →
      ∀ devices : List device_info,
        (hub.devices_changed_callback (some devices)).res = .returned () ∧
        (hub.devices_changed_callback (some devices)).hub._device_list =
          filter_by_vid devices vid ∧
        (hub.devices_changed_callback (some devices)).hub._camera_index = 0) := by
  refine ⟨rfl, ?_, ?_⟩
  · intro hub hreach query hres
    obtain ⟨hvid, _⟩ := reachable_members vid register_device_notifications hub hreach
    cases query with
    | none => cases hres
    | some devices =>
      refine ⟨devices, rfl, ?_, rfl⟩
      show filter_by_vid devices hub._vid = _
      rw [hvid]
  · intro hub hreach devices
    obtain ⟨hvid, _⟩ := reachable_members vid register_device_notifications hub hreach
    refine ⟨rfl, ?_, rfl⟩
    show filter_by_vid devices hub._vid = _
    rw [hvid]

/-- C10 as stated fails: when the provider query throws during a refresh of
the hub `[A, B]`, the callback does not return normally; the exception leaves
it. -/
theorem callback_propagates_query_failure :
    (hub_AB.devices_changed_callback none).res = .thrown ∧
    (hub_AB.devices_changed_callback none).res ≠ .returned () := by
  decide

/-- C10, amended. The callback has no exception handling: it returns normally
to the provider exactly when the provider query returns a list, and when the
query throws the exception leaves the callback, towards the provider. -/
theorem callback_returns_iff_query_returns (hub : device_hub)
    (query : Option (List device_info)) :
    ((hub.devices_changed_callback query).res = .returned () ↔ query.isSome = true) ∧
    ((hub.devices_changed_callback query).res = .thrown ↔ query = none) := by
  cases query with
  | none =>
    refine ⟨⟨?_, ?_⟩, ⟨fun _ => rfl, fun _ => rfl⟩⟩
    · intro h
      cases h
    · intro h
      cases h
  | some devices =>
    refine ⟨⟨fun _ => rfl, fun _ => rfl⟩, ⟨?_, ?_⟩⟩
    · intro h
      cases h
    · intro h
      cases h

/-! ## Failing refresh, broadcast, liveness -/

/-- C11. When the provider query fails during a hotplug refresh (the
right-hand side of the assignment of line 42 ends by an exception), the
callback leaves the hub as it was, device list and cursor included, and does
not reach `notify_all`: no waiter is woken. -/
theorem refresh_failure_is_no_op (hub : device_hub) :
    (hub.devices_changed_callback none).hub = hub ∧
    (hub.devices_changed_callback none).hub._device_list = hub._device_list ∧
    (hub.devices_changed_callback none).hub._camera_index = hub._camera_index ∧
    (hub.devices_changed_callback none).notified = false :=
  ⟨rfl, rfl, rfl, rfl⟩

/-- C18. A refresh that completes runs `notify_all` if and only if the newly
filtered device list is not empty; a refresh that yields the empty list wakes
nobody. -/
theorem callback_notifies_iff_nonempty (hub : device_hub)
    (devices : List device_info) :
    ((hub.devices_changed_callback (some devices)).notified = true ↔
      (hub.devices_changed_callback (some devices)).hub._device_list ≠ []) ∧
    ((hub.devices_changed_callback (some devices)).hub._device_list =
      filter_by_vid devices hub._vid) ∧
    (filter_by_vid devices hub._vid = [] →
      (hub.devices_changed_callback (some devices)).notified = false) := by
  have hdef : (hub.devices_changed_callback (some devices)).notified =
      decide ((filter_by_vid devices hub._vid).length > 0) := rfl
  refine ⟨?_, rfl, ?_⟩
  · rw [hdef]
    show _ ↔ filter_by_vid devices hub._vid ≠ []
    simp [List.length_pos]
  · intro h
    rw [hdef, h]
    rfl

/-- C15. `is_connected` returns exactly `dev.is_valid()`, so false whenever
the handle reports itself invalid, and leaves the hub, device list and cursor
included, as it was. -/
theorem is_connected_delegates (hub : device_hub) (dev : device_interface) :
    (hub.is_connected dev).2 = dev.is_valid ∧
    (dev.is_valid = false → (hub.is_connected dev).2 = false) ∧
    (hub.is_connected dev).1 = hub ∧
    (hub.is_connected dev).1._device_list = hub._device_list ∧
    (hub.is_connected dev).1._camera_index = hub._camera_index :=
  ⟨rfl, fun h => h, rfl, rfl, rfl⟩

/-! ## Positions opened by one call -/

theorem scan_index_injective (hub : device_hub) (x y : Nat)
    (hx : x < hub._device_list.length) (hy : y < hub._device_list.length)
    (h : hub.scan_index x = hub.scan_index y) : x = y := by
  unfold device_hub.scan_index at h
  have hmod : x ≡ y [MOD hub._device_list.length] :=
    Nat.ModEq.add_left_cancel' hub._camera_index h
  unfold Nat.ModEq at hmod
  rwa [Nat.mod_eq_of_lt hx, Nat.mod_eq_of_lt hy] at hmod

theorem scan_positions_length (hub : device_hub) (k : Nat) :
    (hub.scan_positions k).length = k := by
  simp [device_hub.scan_positions, device_hub.scan_window]

theorem scan_positions_nodup (hub : device_hub) (k : Nat)
    (hk : k ≤ hub._device_list.length) : (hub.scan_positions k).Nodup := by
  unfold device_hub.scan_positions device_hub.scan_window
  apply List.Nodup.map_on _ (List.nodup_range k)
  intro x hx y hy hxy
  rw [List.mem_range] at hx hy
  simp only [Nat.zero_add] at hxy
  exact scan_index_injective hub x y (by omega) (by omega) hxy

theorem scan_positions_lt (hub : device_hub) (k p : Nat)
    (hn : hub._device_list.length ≠ 0) (hp : p ∈ hub.scan_positions k) :
    p < hub._device_list.length := by
  unfold device_hub.scan_positions device_hub.scan_window at hp
  rw [List.mem_map] at hp
  obtain ⟨j, _, rfl⟩ := hp
  exact scan_index_lt hub _ hn

/-- The positions opened by a call are the first `k` scan positions, for some
`k` up to the length of the list. -/
theorem create_device_opened_positions (hub : device_hub) (serial : String)
    (cycle : Bool) :
    ∃ k, k ≤ hub._device_list.length ∧
      (hub.create_device serial cycle).opened = hub.scan_positions k := by
  rcases create_device_cases hub serial cycle with
    ⟨k, hk, _, _, hopened, _⟩ | ⟨_, hopened, _⟩
  · exact ⟨k + 1, hk, hopened⟩
  · exact ⟨_, Nat.le_refl _, hopened⟩

/-- C16. One `create_device` call opens at most `n` candidates, where `n` is
the length of the list, opens no list position twice and only positions of
the list; on the empty list it returns null without opening anything. -/
theorem create_device_opens_bounded (hub : device_hub) (serial : String)
    (cycle_devices : Bool) :
    (hub.create_device serial cycle_devices).opened.length ≤ hub._device_list.length ∧
    (hub.create_device serial cycle_devices).opened.Nodup ∧
    (∀ p ∈ (hub.create_device serial cycle_devices).opened,
      p < hub._device_list.length) ∧
    (hub._device_list = [] →
      (hub.create_device serial cycle_devices).res = .returned none ∧
      (hub.create_device serial cycle_devices).opened = []) := by
  obtain ⟨k, hk, hopened⟩ := create_device_opened_positions hub serial cycle_devices
  refine ⟨?_, ?_, ?_, ?_⟩
  · rw [hopened, scan_positions_length]
    exact hk
  · rw [hopened]
    exact scan_positions_nodup hub k hk
  · intro p hp
    rw [hopened] at hp
    by_cases hn : hub._device_list.length = 0
    · have hk0 : k = 0 := by omega
      rw [hk0] at hp
      cases hp
    · exact scan_positions_lt hub k p hn hp
  · intro hnil
    have h0 : hub._device_list.length = 0 := by rw [hnil]; rfl
    rw [create_device_res, create_device_opened, scan_empty hub serial h0]
    exact ⟨rfl, rfl⟩

/-- A one-candidate loop on a non-empty list ends by a return, an exception or
a null dereference, never by a modulo or index fault. -/
theorem scan_one_no_index_fault (hub : device_hub) (serial : String) (i : Nat)
    (hn : hub._device_list.length ≠ 0) :
    (hub.scan serial 1 i).res ≠ .undefined .modulo_by_zero ∧
      (hub.scan serial 1 i).res ≠ .undefined .index_out_of_range := by
  obtain ⟨r, hr⟩ := create_at_scan_index hub i hn
  rw [scan_succ hub serial 0 i r hr]
  cases r with
  | throws => exact ⟨(fun h => by cases h), (fun h => by cases h)⟩
  | null =>
    by_cases hs : serial.length > 0
    · simp only [hs, if_true]
      exact ⟨(fun h => by cases h), (fun h => by cases h)⟩
    · simp only [hs, if_false]
      exact ⟨(fun h => by cases h), (fun h => by cases h)⟩
  | device dev =>
    by_cases hs : serial.length > 0
    · by_cases he : serial = dev.serial_number
      · dsimp only
        rw [if_pos hs, if_pos he]
        exact ⟨(fun h => by cases h), (fun h => by cases h)⟩
      · dsimp only
        rw [if_pos hs, if_neg he]
        exact ⟨(fun h => by cases h), (fun h => by cases h)⟩
    · simp only [hs, if_false]
      exact ⟨(fun h => by cases h), (fun h => by cases h)⟩

/-- C19. Whatever the list (the empty one included), cursor, serial, cycle
flag and open outcomes, `create_device` never evaluates `% size` with
`size == 0`, neither in the index computation nor in the cursor advance, and
never indexes the list outside of it: the call does not end by one of these
faults, and every position it opens is a position of the list. -/
theorem create_device_no_modulo_by_zero (hub : device_hub) (serial : String)
    (cycle_devices : Bool) :
    (hub.create_device serial cycle_devices).res ≠ .undefined .modulo_by_zero ∧
    (hub.create_device serial cycle_devices).res ≠ .undefined .index_out_of_range ∧
    (∀ p ∈ (hub.create_device serial cycle_devices).opened,
      p < hub._device_list.length ∧ ∃ d, hub._device_list[p]? = some d) ∧
    (produced_handle (hub.create_device serial cycle_devices).res = true →
      hub._device_list.length ≠ 0) := by
  have hpos : ∀ p ∈ (hub.create_device serial cycle_devices).opened,
      p < hub._device_list.length := by
    obtain ⟨k, hk, hopened⟩ := create_device_opened_positions hub serial cycle_devices
    intro p hp
    rw [hopened] at hp
    by_cases hn : hub._device_list.length = 0
    · have hk0 : k = 0 := by omega
      rw [hk0] at hp
      cases hp
    · exact scan_positions_lt hub k p hn hp
  rcases create_device_cases hub serial cycle_devices with
    ⟨k, hk, _, _, _, hres⟩ | ⟨_, _, hres⟩
  · have hn : hub._device_list.length ≠ 0 := by omega
    obtain ⟨h1, h2⟩ := scan_one_no_index_fault hub serial k hn
    rw [hres]
    exact ⟨h1, h2, fun p hp => ⟨hpos p hp, _, List.getElem?_eq_getElem (hpos p hp)⟩,
      fun _ => hn⟩
  · rw [hres]
    refine ⟨(fun h => by cases h), (fun h => by cases h),
      fun p hp => ⟨hpos p hp, _, List.getElem?_eq_getElem (hpos p hp)⟩, ?_⟩
    intro h
    cases h

/-! ## Selection by serial number and the cursor -/

/-- With a non-empty serial on a list whose descriptors all open, a call
returns the handle of a list position that reports the serial, or returns
null and no position reports it. -/
theorem create_device_serial_result (hub : device_hub) (s : String) (cycle : Bool)
    (hs : s.length > 0)
    (hopen : ∀ d ∈ hub._device_list, ∃ dev,
      d.create_device hub._register_device_notifications = .device dev) :
    (∃ p dev, hub.handle_at p = some dev ∧ dev.serial_number = s ∧
        (hub.create_device s cycle).res = .returned (some dev))
    ∨ ((hub.create_device s cycle).res = .returned none ∧
        ∀ p dev, hub.handle_at p = some dev → dev.serial_number ≠ s) := by
  rcases create_device_cases hub s cycle with
    ⟨k, hk, _, hat, _, hres⟩ | ⟨hall, _, hres⟩
  · left
    have hn : hub._device_list.length ≠ 0 := by omega
    obtain ⟨r, hr⟩ := create_at_scan_index hub k hn
    obtain ⟨d, hd, hdr⟩ := mem_of_create_at hub _ r hr
    obtain ⟨dev, hdev⟩ := hopen d hd
    rw [hdr] at hdev
    subst hdev
    obtain ⟨hone, hser⟩ := scan_one_device hub s k dev hr hat
    exact ⟨hub.scan_index k, dev, (handle_at_eq_some hub _ dev).mpr hr, (hser hs).symm,
      by rw [hres, hone]⟩
  · right
    refine ⟨hres, ?_⟩
    intro p dev hp
    rw [handle_at_eq_some] at hp
    have hlt : p < hub._device_list.length := by
      obtain ⟨d, hd, _⟩ := create_at_eq_some hub p _ hp
      exact (List.getElem?_eq_some.mp hd).1
    obtain ⟨j, hj, hjp⟩ := scan_index_surjective hub p hlt
    have hpass := hall j hj
    rw [hjp] at hpass
    unfold device_hub.passed_over at hpass
    simp only [hp] at hpass
    exact fun e => hpass.2 e.symm

/-- C20. On a list whose devices all open and report pairwise distinct serial
numbers, `create_device` with a non-empty serial returns the same result from
any two cursors: the same device, or null both times. The positions opened on
the way are the scan positions from the respective cursor. -/
theorem create_device_serial_cursor_independent (hub : device_hub) (s : String)
    (cycle : Bool) (c1 c2 : Nat) (hs : s.length > 0)
    (hopen : ∀ d ∈ hub._device_list, ∃ dev,
      d.create_device hub._register_device_notifications = .device dev)
    (hdistinct : ∀ p q dev dev', hub.handle_at p = some dev →
      hub.handle_at q = some dev' → dev.serial_number = dev'.serial_number → p = q) :
    ({ hub with _camera_index := c1 }.create_device s cycle).res =
      ({ hub with _camera_index := c2 }.create_device s cycle).res := by
  have h1 := create_device_serial_result { hub with _camera_index := c1 } s cycle hs hopen
  have h2 := create_device_serial_result { hub with _camera_index := c2 } s cycle hs hopen
  have hsame1 : ∀ p, ({ hub with _camera_index := c1 } : device_hub).handle_at p =
      hub.handle_at p := fun _ => rfl
  have hsame2 : ∀ p, ({ hub with _camera_index := c2 } : device_hub).handle_at p =
      hub.handle_at p := fun _ => rfl
  rcases h1 with ⟨p1, dev1, hp1, hser1, hres1⟩ | ⟨hres1, hno1⟩
  · rcases h2 with ⟨p2, dev2, hp2, hser2, hres2⟩ | ⟨_, hno2⟩
    · rw [hsame1] at hp1
      rw [hsame2] at hp2
      have hpq : p1 = p2 := hdistinct p1 p2 dev1 dev2 hp1 hp2 (by rw [hser1, hser2])
      subst hpq
      rw [hp1] at hp2
      cases hp2
      rw [hres1, hres2]
    · exact absurd hser1 (hno2 p1 dev1 hp1)
  · rcases h2 with ⟨p2, dev2, hp2, hser2, _⟩ | ⟨hres2, _⟩
    · exact absurd hser2 (hno1 p2 dev2 hp2)
    · rw [hres1, hres2]

theorem hub_AB_distinct_serials : ∀ p q dev dev', hub_AB.handle_at p = some dev →
    hub_AB.handle_at q = some dev' → dev.serial_number = dev'.serial_number → p = q := by
  have h0 : hub_AB.handle_at 0 = some { serial_number := "S1", is_valid := true } := rfl
  have h1 : hub_AB.handle_at 1 = some { serial_number := "S2", is_valid := true } := rfl
  have h2 : ∀ p, hub_AB.handle_at (p + 2) = none := fun _ => rfl
  intro p q dev dev' hp hq hser
  rcases p with _ | _ | p <;> rcases q with _ | _ | q
  · rfl
  · rw [h0] at hp
    rw [h1] at hq
    cases hp
    cases hq
    exact absurd hser (by decide)
  · rw [h2] at hq
    cases hq
  · rw [h1] at hp
    rw [h0] at hq
    cases hp
    cases hq
    exact absurd hser (by decide)
  · rfl
  · rw [h2] at hq
    cases hq
  · rw [h2] at hp
    cases hp
  · rw [h2] at hp
    cases hp
  · rw [h2] at hp
    cases hp

/-- C20 at the hub `[A, B]` with target "S2", from cursor 0 and from cursor 1:
B both times, after two opens from cursor 0 and one from cursor 1. -/
theorem create_device_serial_cursor_independent_witness :
    ("S2".length > 0 ∧
      (∀ d ∈ hub_AB._device_list, ∃ dev,
        d.create_device hub_AB._register_device_notifications = .device dev)) ∧
    ({ hub_AB with _camera_index := 0 }.create_device "S2" false).res =
      ({ hub_AB with _camera_index := 1 }.create_device "S2" false).res ∧
    ({ hub_AB with _camera_index := 0 }.create_device "S2" false).opened = [0, 1] ∧
    ({ hub_AB with _camera_index := 1 }.create_device "S2" false).opened = [1] :=
  ⟨⟨by decide, hub_AB_opens⟩,
    create_device_serial_cursor_independent hub_AB "S2" false 0 1 (by decide)
      hub_AB_opens hub_AB_distinct_serials,
    by decide, by decide⟩

/-! ## The wait predicate and the timed wait -/

theorem create_device_on_empty (hub : device_hub) (serial : String) (cycle : Bool)
    (h0 : ¬ hub._device_list.length > 0) :
    (hub.create_device serial cycle).res = .returned none ∧
      (hub.create_device serial cycle).hub = hub := by
  have hlen : hub._device_list.length = 0 := by omega
  have hres : (hub.create_device serial cycle).res = .returned none := by
    rw [create_device_res, scan_empty hub serial hlen]
  exact ⟨hres, create_device_hub_of_no_handle hub serial cycle (by rw [hres]; rfl)⟩

theorem length_pos_of_handle (hub : device_hub) (serial : String) (cycle : Bool)
    (dev : device_interface)
    (h : (hub.create_device serial cycle).res = .returned (some dev)) :
    hub._device_list.length > 0 := by
  by_contra h0
  rw [(create_device_on_empty hub serial cycle h0).1] at h
  cases h

/-- The predicate ends as the `create_device` call on the same hub does: on
the empty list that call returns null without touching anything. -/
theorem wait_predicate_eq (hub : device_hub) (serial : String) (cycle : Bool) :
    (hub.wait_predicate serial cycle).res = (hub.create_device serial cycle).res ∧
      (hub.wait_predicate serial cycle).hub = (hub.create_device serial cycle).hub := by
  unfold device_hub.wait_predicate
  by_cases hpos : hub._device_list.length > 0
  · simp only [hpos, if_true]
    split
    · next h => exact ⟨h.symm, rfl⟩
    · exact ⟨rfl, rfl⟩
  · simp only [hpos, if_false]
    obtain ⟨h1, h2⟩ := create_device_on_empty hub serial cycle hpos
    exact ⟨h1.symm, h2.symm⟩

theorem wait_predicate_counts (hub : device_hub) (serial : String) (cycle : Bool) :
    (hub.wait_predicate serial cycle).selections ≤ 1 ∧
      (hub.wait_predicate serial cycle).sleeps ≤ 1 ∧
      (hub._device_list = [] → (hub.wait_predicate serial cycle).selections = 0) := by
  unfold device_hub.wait_predicate
  by_cases hpos : hub._device_list.length > 0
  · simp only [hpos, if_true]
    have hne : hub._device_list ≠ [] := List.length_pos.mp hpos
    split
    · exact ⟨Nat.le_refl 1, Nat.le_refl 1, fun h => absurd h hne⟩
    · exact ⟨Nat.le_refl 1, Nat.zero_le 1, fun h => absurd h hne⟩
  · simp only [hpos, if_false]
    exact ⟨Nat.zero_le 1, Nat.le_refl 1, fun _ => trivial⟩

theorem wait_predicate_hub_of_none (hub : device_hub) (serial : String) (cycle : Bool)
    (h : (hub.create_device serial cycle).res = .returned none) :
    (hub.wait_predicate serial cycle).hub = hub := by
  rw [(wait_predicate_eq hub serial cycle).2]
  exact create_device_hub_of_no_handle hub serial cycle (by rw [h]; rfl)

theorem wait_timed_out_eq (hub : device_hub) (serial : String) (cycle : Bool) :
    hub.wait_timed_out serial cycle =
      wait_result.ending (hub.wait_predicate serial cycle) 0
        (wait_outcome.of_predicate (hub.create_device serial cycle).res) := by
  unfold device_hub.wait_timed_out
  rw [← (wait_predicate_eq hub serial cycle).1]
  simp only
  split <;> next h => rw [h]; rfl

/-- The wait ends at once when the first evaluation of the predicate does not
return null. -/
theorem wait_for_of_decisive (hub : device_hub) (serial : String) (cycle : Bool)
    (wakes : List (List hub_event)) (last : List hub_event)
    (h : (hub.create_device serial cycle).res ≠ .returned none) :
    hub.wait_for serial cycle wakes last =
      wait_result.ending (hub.wait_predicate serial cycle) 0
        (wait_outcome.of_predicate (hub.create_device serial cycle).res) := by
  rw [← (wait_predicate_eq hub serial cycle).1] at h ⊢
  unfold device_hub.wait_for
  simp only
  split
  · next h' => rw [h']; rfl
  · next h' => rw [h']; rfl
  · next h' => rw [h']; rfl
  · next h' => exact absurd h' h

theorem wait_for_nil (hub : device_hub) (serial : String) (cycle : Bool)
    (last : List hub_event)
    (h : (hub.create_device serial cycle).res = .returned none) :
    hub.wait_for serial cycle [] last =
      ((hub.after_events last).wait_timed_out serial cycle).after
        (hub.wait_predicate serial cycle) 1 := by
  have hhub := wait_predicate_hub_of_none hub serial cycle h
  rw [← (wait_predicate_eq hub serial cycle).1] at h
  unfold device_hub.wait_for
  simp only [h, hhub]

theorem wait_for_cons (hub : device_hub) (serial : String) (cycle : Bool)
    (events : List hub_event) (rest : List (List hub_event)) (last : List hub_event)
    (h : (hub.create_device serial cycle).res = .returned none) :
    hub.wait_for serial cycle (events :: rest) last =
      ((hub.after_events events).wait_for serial cycle rest last).after
        (hub.wait_predicate serial cycle) 1 := by
  have hhub := wait_predicate_hub_of_none hub serial cycle h
  rw [← (wait_predicate_eq hub serial cycle).1] at h
  rw [device_hub.wait_for]
  simp only [h, hhub]

theorem evaluation_states_ne_nil (hub : device_hub) (wakes : List (List hub_event))
    (last : List hub_event) : hub.evaluation_states wakes last ≠ [] := by
  cases wakes <;> exact List.cons_ne_nil _ _

theorem evaluation_states_length (hub : device_hub) (wakes : List (List hub_event))
    (last : List hub_event) :
    (hub.evaluation_states wakes last).length = wakes.length + 2 := by
  induction wakes generalizing hub with
  | nil => rfl
  | cons events rest ih =>
    show (hub.after_events events |>.evaluation_states rest last).length + 1 = _
    rw [ih]
    rfl

/-- The wait ends with the first evaluation that does not return null, and
otherwise with the evaluation made after the timeout: `earlier` are the
states of the evaluations that returned null, `st` the state of the
evaluation that ends the wait. -/
theorem wait_for_split (serial : String) (cycle : Bool) (last : List hub_event) :
    ∀ (wakes : List (List hub_event)) (hub : device_hub)
      (earlier : List device_hub) (st : device_hub) (later : List device_hub),
    hub.evaluation_states wakes last = earlier ++ st :: later →
    (∀ x ∈ earlier, (x.create_device serial cycle).res = .returned none) →
    ((st.create_device serial cycle).res ≠ .returned none ∨ later = []) →
    (hub.wait_for serial cycle wakes last).res =
        wait_outcome.of_predicate (st.create_device serial cycle).res ∧
      (hub.wait_for serial cycle wakes last).hub = (st.create_device serial cycle).hub ∧
      (hub.wait_for serial cycle wakes last).waits = earlier.length ∧
      (hub.wait_for serial cycle wakes last).evaluations = earlier.length + 1 := by
  intro wakes
  induction wakes with
  | nil =>
    intro hub earlier st later hsplit hearlier hst
    have hstates : hub.evaluation_states [] last = [hub, hub.after_events last] := rfl
    rw [hstates] at hsplit
    cases earlier with
    | nil =>
      simp only [List.nil_append, List.cons.injEq] at hsplit
      obtain ⟨rfl, hlater⟩ := hsplit
      have hdec : (hub.create_device serial cycle).res ≠ .returned none := by
        rcases hst with h | h
        · exact h
        · rw [h] at hlater
          cases hlater
      rw [wait_for_of_decisive hub serial cycle [] last hdec]
      exact ⟨rfl, (wait_predicate_eq hub serial cycle).2, rfl, rfl⟩
    | cons x earlier' =>
      simp only [List.cons_append, List.cons.injEq] at hsplit
      obtain ⟨rfl, htail⟩ := hsplit
      have hnone := hearlier hub (List.mem_cons_self _ _)
      cases earlier' with
      | nil =>
        simp only [List.nil_append, List.cons.injEq] at htail
        obtain ⟨rfl, _⟩ := htail
        rw [wait_for_nil hub serial cycle last hnone, wait_timed_out_eq]
        exact ⟨rfl, (wait_predicate_eq _ serial cycle).2, rfl, rfl⟩
      | cons y earlier'' =>
        simp only [List.cons_append, List.cons.injEq] at htail
        obtain ⟨_, hbad⟩ := htail
        cases earlier'' <;> cases hbad
  | cons events rest ih =>
    intro hub earlier st later hsplit hearlier hst
    have hstates : hub.evaluation_states (events :: rest) last =
        hub :: (hub.after_events events).evaluation_states rest last := rfl
    rw [hstates] at hsplit
    cases earlier with
    | nil =>
      simp only [List.nil_append, List.cons.injEq] at hsplit
      obtain ⟨rfl, hlater⟩ := hsplit
      have hdec : (hub.create_device serial cycle).res ≠ .returned none := by
        rcases hst with h | h
        · exact h
        · rw [h] at hlater
          exact absurd hlater (evaluation_states_ne_nil _ rest last)
      rw [wait_for_of_decisive hub serial cycle _ last hdec]
      exact ⟨rfl, (wait_predicate_eq hub serial cycle).2, rfl, rfl⟩
    | cons x earlier' =>
      simp only [List.cons_append, List.cons.injEq] at hsplit
      obtain ⟨rfl, htail⟩ := hsplit
      have hnone := hearlier hub (List.mem_cons_self _ _)
      obtain ⟨h1, h2, h3, h4⟩ := ih (hub.after_events events) earlier' st later htail
        (fun y hy => hearlier y (List.mem_cons_of_mem _ hy)) hst
      rw [wait_for_cons hub serial cycle events rest last hnone]
      refine ⟨h1, h2, ?_, ?_⟩
      · show 1 + _ = _
        rw [h3, List.length_cons]
        omega
      · show 1 + _ = _
        rw [h4, List.length_cons]
        omega

/-- In a non-empty list there is a first element that fails `P`, or all but
the last element satisfy `P`. -/
theorem exists_first_or_last {α : Type} (P : α → Prop) :
    ∀ l : List α, l ≠ [] →
      ∃ earlier st later, l = earlier ++ st :: later ∧
        (∀ x ∈ earlier, P x) ∧ (¬ P st ∨ later = []) := by
  intro l
  induction l with
  | nil => intro h; exact absurd rfl h
  | cons a t ih =>
    intro _
    by_cases ha : P a
    · cases t with
      | nil => exact ⟨[], a, [], rfl, (fun x hx => by cases hx), Or.inr rfl⟩
      | cons b t' =>
        obtain ⟨earlier, st, later, hsplit, hearlier, hst⟩ := ih (List.cons_ne_nil _ _)
        refine ⟨a :: earlier, st, later, by rw [hsplit]; rfl, ?_, hst⟩
        intro x hx
        rcases List.mem_cons.mp hx with rfl | hx'
        · exact ha
        · exact hearlier x hx'
    · exact ⟨[], a, t, rfl, (fun x hx => by cases hx), Or.inl ha⟩

/-- Counts of a wait: one evaluation before the first blocking and one after
each blocked period; `create_device` and `sleep_for` run at most once per
evaluation. -/
theorem wait_for_counts (serial : String) (cycle : Bool) (last : List hub_event) :
    ∀ (wakes : List (List hub_event)) (hub : device_hub),
      (hub.wait_for serial cycle wakes last).evaluations =
          (hub.wait_for serial cycle wakes last).waits + 1 ∧
        (hub.wait_for serial cycle wakes last).selections ≤
          (hub.wait_for serial cycle wakes last).evaluations ∧
        (hub.wait_for serial cycle wakes last).sleeps ≤
          (hub.wait_for serial cycle wakes last).evaluations := by
  intro wakes
  induction wakes with
  | nil =>
    intro hub
    obtain ⟨hsel, hsl, _⟩ := wait_predicate_counts hub serial cycle
    by_cases h : (hub.create_device serial cycle).res = .returned none
    · rw [wait_for_nil hub serial cycle last h, wait_timed_out_eq]
      obtain ⟨hsel', hsl', _⟩ := wait_predicate_counts (hub.after_events last) serial cycle
      refine ⟨rfl, ?_, ?_⟩
      · simp only [wait_result.after, wait_result.ending]
        omega
      · simp only [wait_result.after, wait_result.ending]
        omega
    · rw [wait_for_of_decisive hub serial cycle [] last h]
      exact ⟨rfl, hsel, hsl⟩
  | cons events rest ih =>
    intro hub
    obtain ⟨hsel, hsl, _⟩ := wait_predicate_counts hub serial cycle
    by_cases h : (hub.create_device serial cycle).res = .returned none
    · rw [wait_for_cons hub serial cycle events rest last h]
      obtain ⟨h1, h2, h3⟩ := ih (hub.after_events events)
      refine ⟨?_, ?_, ?_⟩
      · simp only [wait_result.after]
        omega
      · simp only [wait_result.after]
        omega
      · simp only [wait_result.after]
        omega
    · rw [wait_for_of_decisive hub serial cycle _ last h]
      exact ⟨rfl, hsel, hsl⟩

/-- A wait whose first evaluation returns null blocks at least once. -/
theorem wait_for_blocks (serial : String) (cycle : Bool) (last : List hub_event)
    (wakes : List (List hub_event)) (hub : device_hub)
    (h : (hub.create_device serial cycle).res = .returned none) :
    1 ≤ (hub.wait_for serial cycle wakes last).waits := by
  cases wakes with
  | nil =>
    rw [wait_for_nil hub serial cycle last h]
    exact Nat.le_add_right 1 _
  | cons events rest =>
    rw [wait_for_cons hub serial cycle events rest last h]
    exact Nat.le_add_right 1 _

/-- After a failed immediate attempt the call is the timed wait, with one
more `create_device` execution when the list was not empty. -/
theorem wait_for_device_of_failed (hub : device_hub) (timeout_ms : Nat) (cycle : Bool)
    (serial : String) (schedule : wait_schedule)
    (h : (hub.create_device serial cycle).res = .returned none) :
    (hub.wait_for_device timeout_ms cycle serial schedule).res =
        (hub.wait_for serial cycle schedule.wakes schedule.last).res ∧
      (hub.wait_for_device timeout_ms cycle serial schedule).hub =
        (hub.wait_for serial cycle schedule.wakes schedule.last).hub ∧
      (hub.wait_for_device timeout_ms cycle serial schedule).waits =
        (hub.wait_for serial cycle schedule.wakes schedule.last).waits ∧
      (hub.wait_for_device timeout_ms cycle serial schedule).evaluations =
        (hub.wait_for serial cycle schedule.wakes schedule.last).evaluations ∧
      (hub.wait_for_device timeout_ms cycle serial schedule).sleeps =
        (hub.wait_for serial cycle schedule.wakes schedule.last).sleeps ∧
      (hub.wait_for_device timeout_ms cycle serial schedule).selections =
        (if hub._device_list.length > 0 then 1 else 0) +
          (hub.wait_for serial cycle schedule.wakes schedule.last).selections := by
  have hhub : (hub.create_device serial cycle).hub = hub :=
    create_device_hub_of_no_handle hub serial cycle (by rw [h]; rfl)
  unfold device_hub.wait_for_device
  by_cases hpos : hub._device_list.length > 0
  · simp [hpos, h, hhub]
  · simp [hpos]

theorem of_predicate_eq_no_device (v : outcome (Option device_interface)) :
    wait_outcome.of_predicate v = .no_device_connected ↔ v = .returned none := by
  cases v with
  | returned o =>
    cases o with
    | none => exact ⟨fun _ => rfl, fun _ => rfl⟩
    | some dev => exact ⟨(fun h => by cases h), (fun h => by cases h)⟩
  | thrown => exact ⟨(fun h => by cases h), (fun h => by cases h)⟩
  | undefined f => exact ⟨(fun h => by cases h), (fun h => by cases h)⟩

theorem of_predicate_eq_returned (v : outcome (Option device_interface))
    (dev : device_interface) :
    wait_outcome.of_predicate v = .returned dev ↔ v = .returned (some dev) := by
  cases v with
  | returned o =>
    cases o with
    | none => exact ⟨(fun h => by cases h), (fun h => by cases h)⟩
    | some dev' =>
      constructor
      · intro h
        cases h
        rfl
      · intro h
        cases h
        rfl
  | thrown => exact ⟨(fun h => by cases h), (fun h => by cases h)⟩
  | undefined f => exact ⟨(fun h => by cases h), (fun h => by cases h)⟩

/-! ## `wait_for_device` -/

/-- C12. When `create_device` on the hub at entry yields a handle (so the list
is not empty), `wait_for_device` returns exactly that handle, whatever the
timeout, and leaves the hub as that one `create_device` call leaves it; it
does not enter the condition wait, does not evaluate the wait predicate and
does not sleep. -/
theorem wait_for_device_immediate (hub : device_hub) (timeout_ms : Nat)
    (loop_through_devices : Bool) (serial : String) (schedule : wait_schedule)
    (dev : device_interface)
    (h : (hub.create_device serial loop_through_devices).res = .returned (some dev)) :
    hub._device_list ≠ [] ∧
    (hub.wait_for_device timeout_ms loop_through_devices serial schedule).res =
      .returned dev ∧
    (hub.wait_for_device timeout_ms loop_through_devices serial schedule).hub =
      (hub.create_device serial loop_through_devices).hub ∧
    (hub.wait_for_device timeout_ms loop_through_devices serial schedule).waits = 0 ∧
    (hub.wait_for_device timeout_ms loop_through_devices serial schedule).evaluations = 0 ∧
    (hub.wait_for_device timeout_ms loop_through_devices serial schedule).sleeps = 0 ∧
    (hub.wait_for_device timeout_ms loop_through_devices serial schedule).selections = 1 := by
  have hpos := length_pos_of_handle hub serial loop_through_devices dev h
  refine ⟨List.length_pos.mp hpos, ?_⟩
  unfold device_hub.wait_for_device
  simp [hpos, h]

/-- C12 at the hub `[A, B]`: a cycling call for "S2" returns B at once and
moves the cursor as `create_device` does. -/
theorem wait_for_device_immediate_witness :
    (hub_AB.create_device "S2" true).res =
      .returned (some { serial_number := "S2", is_valid := true }) ∧
    (hub_AB.wait_for_device 500 true "S2" schedule_quiet).res =
      .returned { serial_number := "S2", is_valid := true } ∧
    (hub_AB.wait_for_device 500 true "S2" schedule_quiet).hub =
      (hub_AB.create_device "S2" true).hub ∧
    (hub_AB.wait_for_device 500 true "S2" schedule_quiet).waits = 0 ∧
    (hub_AB.wait_for_device 500 true "S2" schedule_quiet).evaluations = 0 ∧
    (hub_AB.wait_for_device 500 true "S2" schedule_quiet).sleeps = 0 ∧
    (hub_AB.wait_for_device 500 true "S2" schedule_quiet).selections = 1 :=
  ⟨by decide,
    (wait_for_device_immediate hub_AB 500 true "S2" schedule_quiet _ (by decide)).2⟩

/-- C13 as stated fails: the list is empty at entry, a hotplug event brings a
device whose open throws, the caller is woken and its predicate runs
`create_device`; the call ends by that exception, neither with a device nor
with "No device connected". -/
theorem wait_for_device_empty_then_throwing :
    hub_empty._device_list = [] ∧
    (hub_empty.wait_for_device 500 false "" schedule_throwing_arrives).res = .thrown ∧
    (hub_empty.wait_for_device 500 false "" schedule_throwing_arrives).res ≠
      .no_device_connected ∧
    (hub_empty.wait_for_device 500 false "" schedule_throwing_arrives).waits = 1 := by
  refine ⟨rfl, ?_, ?_, ?_⟩ <;> decide

/-- C13, amended. A call issued on an empty list blocks at least once. It
returns the handle of the first evaluation after a wake (that of the timeout
included) at which `create_device` on the current hub yields a handle; it
fails with "No device connected" when `create_device` yields null at every
evaluation up to the one after the timeout; and when an open throws at the
first evaluation that does not yield null, the call ends by that exception. -/
theorem wait_for_device_on_empty_list (hub : device_hub) (timeout_ms : Nat)
    (loop_through_devices : Bool) (serial : String) (schedule : wait_schedule)
    (hempty : hub._device_list = []) :
    1 ≤ (hub.wait_for_device timeout_ms loop_through_devices serial schedule).waits ∧
    (∀ earlier st later dev,
      hub.evaluation_states schedule.wakes schedule.last = earlier ++ st :: later →
      (∀ x ∈ earlier, (x.create_device serial loop_through_devices).res = .returned none) →
      (st.create_device serial loop_through_devices).res = .returned (some dev) →
      (hub.wait_for_device timeout_ms loop_through_devices serial schedule).res =
        .returned dev ∧
      (hub.wait_for_device timeout_ms loop_through_devices serial schedule).hub =
        (st.create_device serial loop_through_devices).hub ∧
      (hub.wait_for_device timeout_ms loop_through_devices serial schedule).waits =
        earlier.length) ∧
    ((∀ x ∈ hub.evaluation_states schedule.wakes schedule.last,
        (x.create_device serial loop_through_devices).res = .returned none) →
      (hub.wait_for_device timeout_ms loop_through_devices serial schedule).res =
        .no_device_connected ∧
      (hub.wait_for_device timeout_ms loop_through_devices serial schedule).waits =
        schedule.wakes.length + 1) ∧
    (∀ earlier st later,
      hub.evaluation_states schedule.wakes schedule.last = earlier ++ st :: later →
      (∀ x ∈ earlier, (x.create_device serial loop_through_devices).res = .returned none) →
      (st.create_device serial loop_through_devices).res = .thrown →
      (hub.wait_for_device timeout_ms loop_through_devices serial schedule).res =
        .thrown) := by
  have hpos : ¬ hub._device_list.length > 0 := by rw [hempty]; decide
  have hnone := (create_device_on_empty hub serial loop_through_devices hpos).1
  obtain ⟨hres, hhub, hwaits, _, _, _⟩ :=
    wait_for_device_of_failed hub timeout_ms loop_through_devices serial schedule hnone
  rw [hres, hhub, hwaits]
  refine ⟨wait_for_blocks serial loop_through_devices _ _ hub hnone, ?_, ?_, ?_⟩
  · intro earlier st later dev hsplit hearlier hst
    obtain ⟨h1, h2, h3, _⟩ := wait_for_split serial loop_through_devices schedule.last
      schedule.wakes hub earlier st later hsplit hearlier
      (Or.inl (by rw [hst]; exact fun h => by cases h))
    rw [hst] at h1
    exact ⟨h1, h2, h3⟩
  · intro hall
    obtain ⟨earlier, st, later, hsplit, hearlier, hst⟩ :=
      exists_first_or_last
        (fun x : device_hub =>
          (x.create_device serial loop_through_devices).res = .returned none)
        _ (evaluation_states_ne_nil hub schedule.wakes schedule.last)
    have hstnone : (st.create_device serial loop_through_devices).res = .returned none :=
      hall st (by rw [hsplit]; simp)
    have hlater : later = [] := by
      rcases hst with h | h
      · exact absurd hstnone h
      · exact h
    obtain ⟨h1, _, h3, _⟩ := wait_for_split serial loop_through_devices schedule.last
      schedule.wakes hub earlier st later hsplit hearlier (Or.inr hlater)
    rw [hstnone] at h1
    refine ⟨h1, ?_⟩
    have hlen := evaluation_states_length hub schedule.wakes schedule.last
    rw [hsplit, hlater] at hlen
    simp only [List.length_append, List.length_cons, List.length_nil] at hlen
    omega
  · intro earlier st later hsplit hearlier hst
    obtain ⟨h1, _, _, _⟩ := wait_for_split serial loop_through_devices schedule.last
      schedule.wakes hub earlier st later hsplit hearlier
      (Or.inl (by rw [hst]; exact fun h => by cases h))
    rw [hst] at h1
    exact h1

/-- C13, amended, in the spec scenario: the list is empty, a hotplug event adds
device C while the caller is blocked; the call returns C after one blocked
period, and the event has left the cursor at 0. -/
theorem wait_for_device_on_empty_list_witness :
    hub_empty._device_list = [] ∧
    ((hub_empty.wait_for_device 500 false "" schedule_C_arrives).res =
        .returned { serial_number := "S3", is_valid := true } ∧
      (hub_empty.wait_for_device 500 false "" schedule_C_arrives).hub =
        ((hub_empty.after_events [.devices_changed (some [device_C])]).create_device
          "" false).hub ∧
      (hub_empty.wait_for_device 500 false "" schedule_C_arrives).waits = 1) ∧
    (hub_empty.wait_for_device 500 false "" schedule_C_arrives).hub._camera_index = 0 ∧
    (hub_empty.wait_for_device 500 false "" schedule_C_arrives).hub._device_list.length = 1 :=
  ⟨rfl,
    (wait_for_device_on_empty_list hub_empty 500 false "" schedule_C_arrives rfl).2.1
      [hub_empty] (hub_empty.after_events [.devices_changed (some [device_C])])
      [(hub_empty.after_events [.devices_changed (some [device_C])]).after_events []]
      { serial_number := "S3", is_valid := true } rfl
      (fun x hx => by
        rw [List.mem_singleton] at hx
        subst hx
        rfl)
      rfl,
    by decide, by decide⟩

/-- C14 as stated fails: the list is empty at entry, so the immediate attempt
gives nothing and the predicate is false before the caller blocks; no wake
comes before the deadline; a hotplug event adds device C during the blocked
period that ends by the timeout. The evaluation `return pred()` made after the
timeout finds C, and the call returns C instead of failing. -/
theorem wait_for_device_handle_after_timeout :
    (hub_empty.create_device "" false).res = .returned none ∧
    schedule_C_at_timeout.wakes = [] ∧
    (hub_empty.wait_for_device 500 false "" schedule_C_at_timeout).res =
      .returned { serial_number := "S3", is_valid := true } ∧
    (hub_empty.wait_for_device 500 false "" schedule_C_at_timeout).res ≠
      .no_device_connected ∧
    (hub_empty.wait_for_device 500 false "" schedule_C_at_timeout).waits = 1 ∧
    (hub_empty.wait_for_device 500 false "" schedule_C_at_timeout).evaluations = 2 := by
  refine ⟨?_, rfl, ?_, ?_, ?_, ?_⟩ <;> decide

/-- C14, amended. After a failed immediate attempt, the call fails with "No
device connected" exactly when `create_device` returns null at every
evaluation of the wait predicate: the one before the first blocking, the one
after each wake, and the one made after the timed wait reported the timeout.
It returns a handle exactly when one of these evaluations, all earlier ones
having returned null, yields that handle; this may be the evaluation made
after the timeout. -/
theorem wait_for_device_deadline_outcome (hub : device_hub) (timeout_ms : Nat)
    (loop_through_devices : Bool) (serial : String) (schedule : wait_schedule)
    (hfailed : (hub.create_device serial loop_through_devices).res = .returned none) :
    ((hub.wait_for_device timeout_ms loop_through_devices serial schedule).res =
        .no_device_connected ↔
      ∀ st ∈ hub.evaluation_states schedule.wakes schedule.last,
        (st.create_device serial loop_through_devices).res = .returned none) ∧
    (∀ dev,
      (hub.wait_for_device timeout_ms loop_through_devices serial schedule).res =
        .returned dev ↔
      ∃ earlier st later,
        hub.evaluation_states schedule.wakes schedule.last = earlier ++ st :: later ∧
        (∀ x ∈ earlier,
          (x.create_device serial loop_through_devices).res = .returned none) ∧
        (st.create_device serial loop_through_devices).res = .returned (some dev)) := by
  obtain ⟨hres, _, _, _, _, _⟩ :=
    wait_for_device_of_failed hub timeout_ms loop_through_devices serial schedule hfailed
  rw [hres]
  obtain ⟨earlier, st, later, hsplit, hearlier, hst⟩ :=
    exists_first_or_last
      (fun x : device_hub =>
        (x.create_device serial loop_through_devices).res = .returned none)
      _ (evaluation_states_ne_nil hub schedule.wakes schedule.last)
  obtain ⟨h1, _, _, _⟩ := wait_for_split serial loop_through_devices schedule.last
    schedule.wakes hub earlier st later hsplit hearlier hst
  constructor
  · rw [h1, of_predicate_eq_no_device]
    constructor
    · intro hnone x hx
      have hlater : later = [] := by
        rcases hst with h | h
        · exact absurd hnone h
        · exact h
      rw [hsplit, hlater] at hx
      rcases List.mem_append.mp hx with hx' | hx'
      · exact hearlier x hx'
      · rw [List.mem_singleton] at hx'
        rw [hx']
        exact hnone
    · intro hall
      exact hall st (by rw [hsplit]; simp)
  · intro dev
    constructor
    · intro hdev
      rw [h1, of_predicate_eq_returned] at hdev
      exact ⟨earlier, st, later, hsplit, hearlier, hdev⟩
    · rintro ⟨earlier', st', later', hsplit', hearlier', hdev'⟩
      obtain ⟨h1', _, _, _⟩ := wait_for_split serial loop_through_devices schedule.last
        schedule.wakes hub earlier' st' later' hsplit' hearlier'
        (Or.inl (by rw [hdev']; exact fun h => by cases h))
      rw [h1', hdev']
      rfl

/-- C14, amended, at the hub `[A, B]` asked for the absent serial "S9" while
nothing happens until the timeout: the immediate attempt fails and the call
fails exactly when every evaluation returns null. -/
theorem wait_for_device_deadline_outcome_witness :
    (hub_AB.create_device "S9" false).res = .returned none ∧
    ((hub_AB.wait_for_device 100 false "S9" schedule_quiet).res = .no_device_connected ↔
      ∀ st ∈ hub_AB.evaluation_states schedule_quiet.wakes schedule_quiet.last,
        (st.create_device "S9" false).res = .returned none) ∧
    (hub_AB.wait_for_device 100 false "S9" schedule_quiet).res = .no_device_connected :=
  ⟨by decide,
    (wait_for_device_deadline_outcome hub_AB 100 false "S9" schedule_quiet (by decide)).1,
    by decide⟩

/-- C17 as stated fails: on the hub `[A, B]`, asked for the absent serial "S9"
with nothing happening until the timeout, the wait is woken once (by the
timeout) and `create_device` runs three times: for the immediate attempt, for
the evaluation of the predicate before the first blocking, and for the one
after the timeout. -/
theorem wait_for_device_three_selections_one_wake :
    (hub_AB.wait_for_device 100 false "S9" schedule_quiet).selections = 3 ∧
    (hub_AB.wait_for_device 100 false "S9" schedule_quiet).waits = 1 ∧
    ¬ ((hub_AB.wait_for_device 100 false "S9" schedule_quiet).selections ≤
      1 + (hub_AB.wait_for_device 100 false "S9" schedule_quiet).waits) := by
  refine ⟨?_, ?_, ?_⟩ <;> decide

/-- C17, amended. Within one call `create_device` runs at most once for the
immediate attempt and at most once in each evaluation of the wait predicate;
the predicate is evaluated once before the first blocking and once after each
wake (the one by the timeout included), never otherwise. So the number of
executions is at most 2 plus the number of wakes, and at most 1 plus the
number of wakes when the list is empty at entry; a call that does not enter
the wait runs it once. -/
theorem wait_for_device_selection_count (hub : device_hub) (timeout_ms : Nat)
    (loop_through_devices : Bool) (serial : String) (schedule : wait_schedule) :
    (hub.wait_for_device timeout_ms loop_through_devices serial schedule).selections ≤
      2 + (hub.wait_for_device timeout_ms loop_through_devices serial schedule).waits ∧
    (hub.wait_for_device timeout_ms loop_through_devices serial schedule).selections ≤
      1 + (hub.wait_for_device timeout_ms loop_through_devices serial schedule).evaluations ∧
    ((hub.wait_for_device timeout_ms loop_through_devices serial schedule).evaluations =
        (hub.wait_for_device timeout_ms loop_through_devices serial schedule).waits + 1 ∨
      ((hub.wait_for_device timeout_ms loop_through_devices serial schedule).evaluations = 0 ∧
        (hub.wait_for_device timeout_ms loop_through_devices serial schedule).waits = 0 ∧
        (hub.wait_for_device timeout_ms loop_through_devices serial schedule).selections = 1)) ∧
    (hub._device_list = [] →
      (hub.wait_for_device timeout_ms loop_through_devices serial schedule).selections ≤
        1 + (hub.wait_for_device timeout_ms loop_through_devices serial schedule).waits) := by
  by_cases hnone : (hub.create_device serial loop_through_devices).res = .returned none
  · obtain ⟨_, _, hwaits, hevals, _, hsel⟩ :=
      wait_for_device_of_failed hub timeout_ms loop_through_devices serial schedule hnone
    obtain ⟨h1, h2, _⟩ :=
      wait_for_counts serial loop_through_devices schedule.last schedule.wakes hub
    rw [hwaits, hevals, hsel]
    refine ⟨?_, ?_, Or.inl h1, ?_⟩
    · split <;> omega
    · split <;> omega
    · intro hempty
      have hpos : ¬ hub._device_list.length > 0 := by rw [hempty]; decide
      rw [if_neg hpos]
      omega
  · have hpos : hub._device_list.length > 0 := by
      by_contra h0
      exact hnone (create_device_on_empty hub serial loop_through_devices h0).1
    have hne : hub._device_list ≠ [] := List.length_pos.mp hpos
    have hdirect :
        (hub.wait_for_device timeout_ms loop_through_devices serial schedule).selections = 1 ∧
        (hub.wait_for_device timeout_ms loop_through_devices serial schedule).evaluations = 0 ∧
        (hub.wait_for_device timeout_ms loop_through_devices serial schedule).waits = 0 := by
      unfold device_hub.wait_for_device
      simp only [hpos, if_true]
      split
      · exact ⟨rfl, rfl, rfl⟩
      · exact ⟨rfl, rfl, rfl⟩
      · exact ⟨rfl, rfl, rfl⟩
      · next h => exact absurd h hnone
    obtain ⟨hs, he, hw⟩ := hdirect
    rw [hs, he, hw]
    exact ⟨by decide, by decide, Or.inr ⟨rfl, rfl, rfl⟩, fun h => absurd h hne⟩

end librealsense
